import Mathlib

/-!
# AsyncStorageWrapper (src/js/storage/AsyncStorageWrapper.js)

A shallow embedding of the storage wrapper that keeps a registry of keys
(`'async-storage-keys'`) on top of an asynchronous get/set/remove store.

Modelling conventions
* JavaScript values are the inductive `Val`; an object is the ordered list of its
  own properties, and its prototype is `Object.prototype`: a read of a name that
  is not an own property finds the inherited member (`toString`, `__proto__`,
  ...), and an assignment to `__proto__` that is not an own property goes to the
  accessor of `Object.prototype` and creates no entry.
* A promise that settles is an `Except Err Val`; a `.then` chain is sequencing in
  `Except`, a `.catch` is a match on the error.
* The store is external to the repository.  It is modelled as a dictionary with
  copy semantics, a schedule of outcomes telling which of the coming operations
  reject, and a trace of the operations issued so far.
-/

set_option autoImplicit false

/-! ## JavaScript values -/

/-- JavaScript values that can be handed to the store. -/
inductive Val where
  | undefined
  | null
  | bool (b : Bool)
  | num (n : Int)
  | str (s : String)
  | obj (fields : List (String × Val))

/-- The possible results of the `typeof` operator. -/
inductive JSType where
  | undefined
  | object
  | boolean
  | number
  | string
  | function
  deriving DecidableEq, Repr

/-- The `typeof` operator on values (`typeof null` is `'object'`). -/
def Val.typeof : Val → JSType
  | .undefined => .undefined
  | .null => .object
  | .bool _ => .boolean
  | .num _ => .number
  | .str _ => .string
  | .obj _ => .object

/-- The test `v === null`. -/
def Val.isNull : Val → Bool
  | .null => true
  | _ => false

/-- The test `v === true`. -/
def Val.isTrue : Val → Bool
  | .bool true => true
  | _ => false

/-- Errors a promise can reject with: a `TypeError` raised by the language, or a
rejection reason chosen by the store. -/
inductive Err where
  | typeError (msg : String)
  | rejection (reason : Val)

/-! ## Dictionaries -/

/-- Look a key up in a dictionary. -/
def assocGet {β : Type} (k : String) : List (String × β) → Option β
  | [] => none
  | (j, v) :: rest => if j = k then some v else assocGet k rest

/-- Assign a key in a dictionary: an existing entry is overwritten in place, a new
one is appended. -/
def assocSet {β : Type} (k : String) (v : β) : List (String × β) → List (String × β)
  | [] => [(k, v)]
  | (j, u) :: rest => if j = k then (j, v) :: rest else (j, u) :: assocSet k v rest

/-- Delete a key from a dictionary. -/
def assocErase {β : Type} (k : String) : List (String × β) → List (String × β)
  | [] => []
  | (j, u) :: rest => if j = k then assocErase k rest else (j, u) :: assocErase k rest

/-- Names of the function-valued members of `Object.prototype`, which every object
and every primitive inherits. -/
def objectPrototypeMembers : List String :=
  ["constructor", "hasOwnProperty", "isPrototypeOf", "propertyIsEnumerable", "toLocaleString",
    "toString", "valueOf", "__defineGetter__", "__defineSetter__", "__lookupGetter__",
    "__lookupSetter__"]

/-- Names of the function-valued members of `Number.prototype`. -/
def numberPrototypeMembers : List String :=
  ["constructor", "toExponential", "toFixed", "toLocaleString", "toPrecision", "toString",
    "valueOf"]

/-- Names of the function-valued members of `Boolean.prototype`. -/
def booleanPrototypeMembers : List String :=
  ["constructor", "toString", "valueOf"]

/-- Names of the function-valued members of `String.prototype`. -/
def stringPrototypeMembers : List String :=
  ["constructor", "at", "charAt", "charCodeAt", "codePointAt", "concat", "endsWith", "includes",
    "indexOf", "isWellFormed", "lastIndexOf", "localeCompare", "match", "matchAll", "normalize",
    "padEnd", "padStart", "repeat", "replace", "replaceAll", "search", "slice", "split",
    "startsWith", "substring", "toLocaleLowerCase", "toLocaleUpperCase", "toLowerCase",
    "toString", "toUpperCase", "toWellFormed", "trim", "trimEnd", "trimStart", "valueOf",
    "substr", "anchor", "big", "blink", "bold", "fixed", "fontcolor", "fontsize", "italics",
    "link", "small", "strike", "sub", "sup", "trimLeft", "trimRight"]

/-- What a property read yields: a value held by the object itself, or a built-in
found on the prototype chain. -/
inductive Read where
  | value (v : Val)
  | builtinFunction (name : String)
  | prototypeObject (members : List String)

/-- The `typeof` operator on the result of a read. -/
def Read.typeof : Read → JSType
  | .value v => v.typeof
  | .builtinFunction _ => .function
  | .prototypeObject _ => .object

/-- The test `p === null` on the result of a read. -/
def Read.isNull : Read → Bool
  | .value v => v.isNull
  | _ => false

/-- The test `p === true` on the result of a read. -/
def Read.isTrue : Read → Bool
  | .value v => v.isTrue
  | _ => false

/-- A read of a name that is not an own property, on a value whose prototype has
the function-valued members `proto` and is followed by `Object.prototype`:
`__proto__` is the accessor of `Object.prototype` and returns the prototype,
a member name returns the inherited function, any other name is `undefined`. -/
def inheritedRead (proto : List String) (key : String) : Read :=
  if key = "__proto__" then .prototypeObject proto
  else if proto.contains key || objectPrototypeMembers.contains key then .builtinFunction key
  else .value .undefined

/-- The read `o[key]` on an object with the own properties `fields`. -/
def objRead (fields : List (String × Val)) (key : String) : Read :=
  match assocGet key fields with
  | some v => .value v
  | none => inheritedRead objectPrototypeMembers key

/-- Own properties of a primitive string: `length` and the canonical indices. -/
def strOwn (s : String) (key : String) : Option Val :=
  if key = "length" then some (.num s.length)
  else
    match key.toNat? with
    | some i =>
      if toString i = key then
        match s.data.get? i with
        | some c => some (.str (String.singleton c))
        | none => none
      else none
    | none => none

/-- The property read `o[key]`.  Reading from `undefined` or `null` throws. -/
def getProp (o : Val) (key : String) : Except Err Read :=
  match o with
  | .undefined => .error (.typeError "Cannot read properties of undefined")
  | .null => .error (.typeError "Cannot read properties of null")
  | .obj fields => .ok (objRead fields key)
  | .str s =>
    match strOwn s key with
    | some v => .ok (.value v)
    | none => .ok (inheritedRead stringPrototypeMembers key)
  | .bool _ => .ok (inheritedRead booleanPrototypeMembers key)
  | .num _ => .ok (inheritedRead numberPrototypeMembers key)

/-- The own properties of an object after the assignment `o[key] = v`: an own
entry is overwritten in place; without an own entry, `__proto__` goes to the
accessor of `Object.prototype`, which at most changes the prototype and creates no
entry, and any other name is appended (inherited functions are writable data
properties, so the assignment shadows them). -/
def assignOwn (key : String) (v : Val) (fields : List (String × Val)) : List (String × Val) :=
  match assocGet key fields with
  | some _ => assocSet key v fields
  | none => if key = "__proto__" then fields else assocSet key v fields

/-- The assignment `o[key] = v` in strict mode (the file starts with
`'use strict'`), returning `o` afterwards.  On a primitive it throws, except for
`__proto__`, where the accessor of `Object.prototype` returns without effect. -/
def setProp (o : Val) (key : String) (v : Val) : Except Err Val :=
  match o with
  | .obj fields => .ok (.obj (assignOwn key v fields))
  | .undefined => .error (.typeError "Cannot set properties of undefined")
  | .null => .error (.typeError "Cannot set properties of null")
  | .str s =>
    if key = "__proto__" then .ok (.str s)
    else .error (.typeError "Cannot create property on a primitive value")
  | .bool b =>
    if key = "__proto__" then .ok (.bool b)
    else .error (.typeError "Cannot create property on a primitive value")
  | .num n =>
    if key = "__proto__" then .ok (.num n)
    else .error (.typeError "Cannot create property on a primitive value")

/-! ## The store -/

/-- The value a store reports for a key it does not hold.  The constructor of the
wrapper recognises exactly `undefined` and `null` as "no value". -/
inductive Absent where
  | undefined
  | null
  deriving DecidableEq, Repr

/-- The absent marker as a value. -/
def Absent.toVal : Absent → Val
  | .undefined => .undefined
  | .null => .null

/-- An operation issued against the store. -/
inductive Op where
  | get (key : String)
  | set (key : String) (value : Val)
  | remove (key : String)

/-- Modelled from the spec: the Store is an external collaborator with the
capability set get/set/remove, each returning an asynchronous result that may
reject; it has no atomicity across keys.  `data` is the content (values are
copied in and out), `absent` the marker returned for a missing key, `faults` the
outcome of the coming operations in order (`some e` rejects with `e`, `none` or an
exhausted schedule succeeds), `log` the operations issued so far, and `console`
the errors written with `console.log`. -/
structure World where
  data : List (String × Val)
  absent : Absent
  faults : List (Option Err)
  log : List Op
  console : List Err

/-- The outcome scheduled for the next store operation. -/
def World.nextFault (w : World) : Option Err :=
  match w.faults with
  | some e :: _ => some e
  | _ => none

/-- Record that an operation was issued and consume its scheduled outcome. -/
def World.issue (op : Op) (w : World) : World :=
  { w with log := w.log ++ [op], faults := w.faults.tail }

/-- Every coming store operation succeeds. -/
def World.Reliable (w : World) : Prop :=
  ∀ f ∈ w.faults, f = none

/-- The store primitive `Storage.get(key)`. -/
def storageGet (key : String) (w : World) : Except Err Val × World :=
  match w.nextFault with
  | some e => (.error e, w.issue (.get key))
  | none => (.ok ((assocGet key w.data).getD w.absent.toVal), w.issue (.get key))

/-- The store primitive `Storage.set(key, value)`. -/
def storageSet (key : String) (value : Val) (w : World) : Except Err Val × World :=
  match w.nextFault with
  | some e => (.error e, w.issue (.set key value))
  | none =>
    (.ok .undefined, { w.issue (.set key value) with data := assocSet key value w.data })

/-- The store primitive `Storage.remove(key)`. -/
def storageRemove (key : String) (w : World) : Except Err Val × World :=
  match w.nextFault with
  | some e => (.error e, w.issue (.remove key))
  | none => (.ok .undefined, { w.issue (.remove key) with data := assocErase key w.data })

/-! ## The wrapper -/

/-- The reserved key under which the registry document is stored. -/
def registryKey : String := "async-storage-keys"

/-- What the constructor can observe of its `Storage` argument: whether it is
`undefined`, `null`, or a value whose members `get`, `set` and `remove` have the
given `typeof`. -/
inductive StorageArg where
  | undefined
  | null
  | object (get set remove : JSType)
  deriving DecidableEq, Repr

/-- One invocation of the constructor callback: `callback(e)` or
`callback(null, storageKeys)`. -/
inductive CallbackCall where
  | failure (e : Err)
  | success (storageKeys : Val)

/-- Everything observable about a construction: the exception thrown
synchronously, if any, the world afterwards and the callback invocations. -/
structure Construction where
  thrown : Option Err
  world : World
  callbacks : List CallbackCall

/-- The constructor `AsyncStorageWrapper(Storage, callback)`.  The promise of the
inner `Storage.set` is not returned from the `then` callback, so its rejection
reaches no handler.  The callback is recorded, and taken not to throw. -/
def AsyncStorageWrapper (Storage : StorageArg) (w : World) : Construction :=
  match Storage with
  | .undefined =>
    { thrown := some (.typeError "Storage is either not defined or null"),
      world := w, callbacks := [] }
  | .null =>
    { thrown := some (.typeError "Storage is either not defined or null"),
      world := w, callbacks := [] }
  | .object get set remove =>
    if get ≠ .function ∨ set ≠ .function ∨ remove ≠ .function then
      { thrown := some (.typeError "Storage is not property defined (it needs to have get, set, and remove functions)"),
        world := w, callbacks := [] }
    else
      match storageGet registryKey w with
      | (.error e, w1) => { thrown := none, world := w1, callbacks := [.failure e] }
      | (.ok storageKeys, w1) =>
        if storageKeys.typeof = .undefined ∨ storageKeys.isNull = true then
          match storageSet registryKey (.obj []) w1 with
          | (.ok _, w2) => { thrown := none, world := w2, callbacks := [.success (.obj [])] }
          | (.error _, w2) => { thrown := none, world := w2, callbacks := [] }
        else
          { thrown := none, world := w1, callbacks := [.success storageKeys] }

/-- The handler `.catch(function(e) { console.log(e); throw e; })`. -/
def logAndRethrow (r : Except Err Val × World) : Except Err Val × World :=
  match r with
  | (.error e, w) => (.error e, { w with console := w.console ++ [e] })
  | (.ok v, w) => (.ok v, w)

/-- The method `getItem(key)`. -/
def AsyncStorageWrapper.prototype.getItem (key : String) (w : World) : Except Err Val × World :=
  storageGet key w

/-- The second `then` callback of `setItem`, run on the registry snapshot. -/
def setItemUpdate (key : String) (storageKeys : Val) (w : World) : Except Err Val × World :=
  match getProp storageKeys key with
  | .error e => (.error e, w)
  | .ok p =>
    if p.typeof = .undefined ∨ p.isTrue = false then
      match setProp storageKeys key (.bool true) with
      | .error e => (.error e, w)
      | .ok updated => storageSet registryKey updated w
    else (.ok .undefined, w)

/-- The method `setItem(key, value)`. -/
def AsyncStorageWrapper.prototype.setItem (key : String) (value : Val) (w : World) :
    Except Err Val × World :=
  logAndRethrow <|
    match storageSet key value w with
    | (.error e, w1) => (.error e, w1)
    | (.ok _, w1) =>
      match storageGet registryKey w1 with
      | (.error e, w2) => (.error e, w2)
      | (.ok storageKeys, w2) => setItemUpdate key storageKeys w2

/-- The second `then` callback of `removeItem`, run on the registry snapshot. -/
def removeItemUpdate (key : String) (storageKeys : Val) (w : World) : Except Err Val × World :=
  match getProp storageKeys key with
  | .error e => (.error e, w)
  | .ok p =>
    if p.typeof ≠ .undefined ∧ p.isNull = false then
      match setProp storageKeys key .null with
      | .error e => (.error e, w)
      | .ok updated => storageSet registryKey updated w
    else (.ok .undefined, w)

/-- The method `removeItem(key)`. -/
def AsyncStorageWrapper.prototype.removeItem (key : String) (w : World) : Except Err Val × World :=
  logAndRethrow <|
    match storageRemove key w with
    | (.error e, w1) => (.error e, w1)
    | (.ok _, w1) =>
      match storageGet registryKey w1 with
      | (.error e, w2) => (.error e, w2)
      | (.ok storageKeys, w2) => removeItemUpdate key storageKeys w2

/-! ## Sequences of calls and interleaved calls -/

/-- A call made by a client of the wrapper. -/
inductive Call where
  | getItem (key : String)
  | setItem (key : String) (value : Val)
  | removeItem (key : String)

/-- The key a call is about. -/
def Call.key : Call → String
  | .getItem key => key
  | .setItem key _ => key
  | .removeItem key => key

/-- Whether a call only reads the store. -/
def Call.isRead : Call → Bool
  | .getItem _ => true
  | _ => false

/-- Run one call to completion. -/
def Call.run : Call → World → Except Err Val × World
  | .getItem key, w => AsyncStorageWrapper.prototype.getItem key w
  | .setItem key value, w => AsyncStorageWrapper.prototype.setItem key value w
  | .removeItem key, w => AsyncStorageWrapper.prototype.removeItem key w

/-- Run calls one after the other, each started when the previous one has
settled, whatever its outcome. -/
def runCalls : List Call → World → World
  | [], w => w
  | c :: rest, w => runCalls rest (c.run w).2

/-- Progress of one `setItem(key, value)` call through its promise chain: each
constructor but the last is a point where the call waits for the store. -/
inductive SetItemTask where
  | start (key : String) (value : Val)
  | written (key : String)
  | snapshot (key : String) (storageKeys : Val)
  | settled (result : Except Err Val)

/-- Settle a task with the result of its chain, through the `catch` handler. -/
def SetItemTask.settle (r : Except Err Val × World) : SetItemTask × World :=
  (.settled (logAndRethrow r).1, (logAndRethrow r).2)

/-- Run a `setItem` call up to its next suspension point: `Storage.set(key,
value)`, then the first `then` callback (the registry read), then the second
`then` callback (the conditional write-back). -/
def SetItemTask.step : SetItemTask → World → SetItemTask × World
  | .start key value, w =>
    match storageSet key value w with
    | (.error e, w1) => SetItemTask.settle (.error e, w1)
    | (.ok _, w1) => (.written key, w1)
  | .written key, w =>
    match storageGet registryKey w with
    | (.error e, w1) => SetItemTask.settle (.error e, w1)
    | (.ok storageKeys, w1) => (.snapshot key storageKeys, w1)
  | .snapshot key storageKeys, w => SetItemTask.settle (setItemUpdate key storageKeys w)
  | .settled result, w => (.settled result, w)

/-- Two `setItem` calls in flight over one store. -/
structure Race where
  first : SetItemTask
  second : SetItemTask
  world : World

/-- Run two calls under a schedule: `false` lets the first call take its next
step, `true` the second. -/
def interleave : List Bool → Race → Race
  | [], r => r
  | false :: rest, r =>
    interleave rest { r with first := (r.first.step r.world).1, world := (r.first.step r.world).2 }
  | true :: rest, r =>
    interleave rest { r with second := (r.second.step r.world).1, world := (r.second.step r.world).2 }

/-- Whether an operation writes the registry key. -/
def Op.isRegistryWrite : Op → Bool
  | .set key _ => key == registryKey
  | _ => false

/-- Number of writes to the registry key in a trace. -/
def registryWrites (log : List Op) : Nat :=
  (log.filter Op.isRegistryWrite).length

/-- A registry flag: `present` (true) or `tombstoned` (null). -/
def Val.isFlag : Val → Bool
  | .bool true => true
  | .null => true
  | _ => false

/-- A key-to-flag map: an object all of whose entries are flags. -/
def Val.isFlagMap : Val → Bool
  | .obj fields => fields.all (fun kv => kv.2.isFlag)
  | _ => false

/-! ## Sample stores and auxiliary predicates -/

/-- A store holding only an empty registry, all of whose operations succeed. -/
def emptyRegistryWorld : World :=
  { data := [(registryKey, .obj [])], absent := .undefined, faults := [], log := [], console := [] }

/-- A store holding a value under `x` and a registry marking `x` present. -/
def presentWorld : World :=
  { data := [(registryKey, .obj [("x", .bool true)]), ("x", .str "v")], absent := .undefined,
    faults := [], log := [], console := [] }

/-- A store argument exposing callable `get`, `set` and `remove`. -/
def validStorage : StorageArg := .object .function .function .function

/-- A store with a caller key and no registry. -/
def freshWorld : World :=
  { data := [("other", .num 7)], absent := .undefined, faults := [], log := [], console := [] }

/-- A store without a registry whose first operation succeeds and whose second
operation rejects. -/
def writeFailsWorld : World :=
  { data := [], absent := .undefined, faults := [none, some (.rejection (.str "quota"))],
    log := [], console := [] }

/-- A store whose first operation succeeds and whose second operation rejects. -/
def readFailsWorld : World :=
  { data := [(registryKey, .obj [])], absent := .undefined,
    faults := [none, some (.rejection (.str "io"))], log := [], console := [] }

/-- The store content holds, under the registry key, a document that is a
key-to-flag map if the document `reg` reported by the constructor was one. -/
def RegistryStored (reg : Val) (d : List (String × Val)) : Prop :=
  ∃ R, assocGet registryKey d = some R ∧ (reg.isFlagMap = true → R.isFlagMap = true)

/-- The interleaving write a, write b, read (for a), read (for b), write-back (a),
write-back (b). -/
def lostUpdateSchedule : List Bool := [false, true, false, true, false, true]

/-- The interleaving write a, write b, read (for a), read (for b), write-back (b),
write-back (a). -/
def lostUpdateScheduleReversed : List Bool := [false, true, false, true, true, false]

/-! ## Dictionary lemmas -/

theorem assocGet_assocSet_self {β : Type} (k : String) (v : β) (l : List (String × β)) :
    assocGet k (assocSet k v l) = some v := by
  induction l with
  | nil => simp [assocSet, assocGet]
  | cons hd tl ih =>
    obtain ⟨j, u⟩ := hd
    by_cases h : j = k <;> simp [assocSet, assocGet, h, ih]

theorem assocGet_assocSet_of_ne {β : Type} {j k : String} (h : j ≠ k) (v : β)
    (l : List (String × β)) : assocGet j (assocSet k v l) = assocGet j l := by
  induction l with
  | nil => simp [assocSet, assocGet, Ne.symm h]
  | cons hd tl ih =>
    obtain ⟨i, u⟩ := hd
    by_cases hik : i = k
    · subst hik
      simp [assocSet, assocGet, Ne.symm h]
    · by_cases hij : i = j
      · subst hij
        simp [assocSet, assocGet, h]
      · simp [assocSet, assocGet, hik, hij, ih]

theorem assocGet_assocErase_self {β : Type} (k : String) (l : List (String × β)) :
    assocGet k (assocErase k l) = none := by
  induction l with
  | nil => simp [assocErase, assocGet]
  | cons hd tl ih =>
    obtain ⟨j, u⟩ := hd
    by_cases h : j = k <;> simp [assocErase, assocGet, h, ih]

theorem assocGet_assocErase_of_ne {β : Type} {j k : String} (h : j ≠ k)
    (l : List (String × β)) : assocGet j (assocErase k l) = assocGet j l := by
  induction l with
  | nil => simp [assocErase, assocGet]
  | cons hd tl ih =>
    obtain ⟨i, u⟩ := hd
    by_cases hik : i = k
    · subst hik
      simp [assocErase, assocGet, Ne.symm h, ih]
    · by_cases hij : i = j
      · subst hij
        simp [assocErase, assocGet, h]
      · simp [assocErase, assocGet, hik, hij, ih]

theorem mem_assocSet {β : Type} {k : String} {v : β} {l : List (String × β)} {kv : String × β}
    (h : kv ∈ assocSet k v l) : kv ∈ l ∨ kv.2 = v := by
  induction l with
  | nil =>
    simp [assocSet] at h
    exact Or.inr (by rw [h])
  | cons hd tl ih =>
    obtain ⟨j, u⟩ := hd
    by_cases hjk : j = k
    · simp [assocSet, hjk] at h
      rcases h with h | h
      · exact Or.inr (by rw [h])
      · exact Or.inl (List.mem_cons_of_mem _ h)
    · simp [assocSet, hjk] at h
      rcases h with h | h
      · exact Or.inl (by rw [h]; exact List.mem_cons_self _ _)
      · rcases ih h with h | h
        · exact Or.inl (List.mem_cons_of_mem _ h)
        · exact Or.inr h

/-! ## Store lemmas -/

theorem World.Reliable.nextFault {w : World} (h : w.Reliable) : w.nextFault = none := by
  unfold World.nextFault
  cases hf : w.faults with
  | nil => rfl
  | cons f rest =>
    have : f = none := h f (by rw [hf]; exact List.mem_cons_self _ _)
    subst this
    rfl

theorem World.Reliable.of_tail {w w1 : World} (h : w.Reliable) (hf : w1.faults = w.faults.tail) :
    w1.Reliable := by
  intro f hmem
  rw [hf] at hmem
  exact h f (List.mem_of_mem_tail hmem)

theorem World.Reliable.of_tail3 {w w3 : World} (h : w.Reliable)
    (hf : w3.faults = w.faults.tail.tail.tail) : w3.Reliable := by
  intro f hmem
  rw [hf] at hmem
  exact h f (List.mem_of_mem_tail (List.mem_of_mem_tail (List.mem_of_mem_tail hmem)))

theorem storageGet_reliable {w : World} (h : w.Reliable) (key : String) :
    storageGet key w =
      (.ok ((assocGet key w.data).getD w.absent.toVal),
        { data := w.data, absent := w.absent, faults := w.faults.tail,
          log := w.log ++ [.get key], console := w.console }) := by
  simp [storageGet, h.nextFault, World.issue]

theorem storageSet_reliable {w : World} (h : w.Reliable) (key : String) (value : Val) :
    storageSet key value w =
      (.ok .undefined,
        { data := assocSet key value w.data, absent := w.absent, faults := w.faults.tail,
          log := w.log ++ [.set key value], console := w.console }) := by
  simp [storageSet, h.nextFault, World.issue]

theorem storageRemove_reliable {w : World} (h : w.Reliable) (key : String) :
    storageRemove key w =
      (.ok .undefined,
        { data := assocErase key w.data, absent := w.absent, faults := w.faults.tail,
          log := w.log ++ [.remove key], console := w.console }) := by
  simp [storageRemove, h.nextFault, World.issue]

/-! ## Assignment lemmas -/

theorem assignOwn_of_own {k : String} {x : Val} {R : List (String × Val)} (v : Val)
    (h : assocGet k R = some x) : assignOwn k v R = assocSet k v R := by
  simp [assignOwn, h]

theorem assignOwn_of_ne_proto {k : String} (hk : k ≠ "__proto__") (v : Val)
    (R : List (String × Val)) : assignOwn k v R = assocSet k v R := by
  unfold assignOwn
  split
  · rfl
  · rw [if_neg hk]

theorem assocGet_assignOwn_of_ne {j k : String} (h : j ≠ k) (v : Val)
    (R : List (String × Val)) : assocGet j (assignOwn k v R) = assocGet j R := by
  unfold assignOwn
  split
  · exact assocGet_assocSet_of_ne h _ _
  · split
    · rfl
    · exact assocGet_assocSet_of_ne h _ _

/-- The assignment creates or overwrites the entry unless the key is `__proto__`
and the object has no such own entry. -/
theorem assocGet_assignOwn_self {k : String} {R : List (String × Val)} (v : Val)
    (h : k ≠ "__proto__" ∨ (assocGet k R).isSome = true) :
    assocGet k (assignOwn k v R) = some v := by
  cases hk : assocGet k R with
  | some x => rw [assignOwn_of_own v hk, assocGet_assocSet_self]
  | none =>
    rcases h with h | h
    · rw [assignOwn_of_ne_proto h, assocGet_assocSet_self]
    · rw [hk] at h
      cases h

theorem mem_assignOwn {k : String} {v : Val} {R : List (String × Val)} {kv : String × Val}
    (h : kv ∈ assignOwn k v R) : kv ∈ R ∨ kv.2 = v := by
  unfold assignOwn at h
  split at h
  · exact mem_assocSet h
  · split at h
    · exact Or.inl h
    · exact mem_assocSet h

theorem isSome_assocGet_assignOwn {j k : String} {v : Val} {R : List (String × Val)}
    (h : (assocGet j R).isSome = true) : (assocGet j (assignOwn k v R)).isSome = true := by
  by_cases hjk : j = k
  · subst hjk
    rw [assocGet_assignOwn_self v (Or.inr h)]
    rfl
  · rw [assocGet_assignOwn_of_ne hjk]
    exact h

theorem inheritedRead_isTrue (proto : List String) (k : String) :
    (inheritedRead proto k).isTrue = false := by
  unfold inheritedRead
  split
  · rfl
  · split <;> rfl

theorem inheritedRead_isNull (proto : List String) (k : String) :
    (inheritedRead proto k).isNull = false := by
  unfold inheritedRead
  split
  · rfl
  · split <;> rfl

theorem isTrue_objRead_iff (k : String) (R : List (String × Val)) :
    (objRead R k).isTrue = true ↔ assocGet k R = some (.bool true) := by
  unfold objRead
  cases h : assocGet k R with
  | none => simp [inheritedRead_isTrue]
  | some p =>
    cases p with
    | bool b => cases b <;> simp [Read.isTrue, Val.isTrue]
    | _ => simp [Read.isTrue, Val.isTrue]

/-- A name that no object inherits: neither `__proto__` nor a member of
`Object.prototype`. -/
theorem objRead_of_not_inherited {k : String} {R : List (String × Val)}
    (hk : k ≠ "__proto__") (hm : objectPrototypeMembers.contains k = false)
    (h : assocGet k R = none) : objRead R k = .value .undefined := by
  simp only [objRead, h, inheritedRead, if_neg hk, hm, Bool.or_self, Bool.false_eq_true,
    if_false]

/-! ## Sequential behaviour of `setItem` and `removeItem` when the store succeeds -/

theorem setItemUpdate_present {k : String} {R : List (String × Val)} (w : World)
    (hp : assocGet k R = some (.bool true)) :
    setItemUpdate k (.obj R) w = (.ok .undefined, w) := by
  simp [setItemUpdate, getProp, objRead, hp, Read.typeof, Read.isTrue, Val.typeof, Val.isTrue]

theorem setItemUpdate_fresh {k : String} {R : List (String × Val)} (w : World)
    (hp : assocGet k R ≠ some (.bool true)) :
    setItemUpdate k (.obj R) w = storageSet registryKey (.obj (assignOwn k (.bool true) R)) w := by
  have h : (objRead R k).isTrue = false := by
    cases hb : (objRead R k).isTrue with
    | false => rfl
    | true => exact absurd ((isTrue_objRead_iff k R).1 hb) hp
  simp [setItemUpdate, getProp, setProp, h]

/-- The world after a `setItem` on a key the registry already marks present. -/
theorem setItem_present {w : World} {R : List (String × Val)} {k : String} (v : Val)
    (hreg : assocGet registryKey w.data = some (.obj R)) (hk : k ≠ registryKey)
    (hok : w.Reliable) (hp : assocGet k R = some (.bool true)) :
    AsyncStorageWrapper.prototype.setItem k v w =
      (.ok .undefined,
        { data := assocSet k v w.data, absent := w.absent, faults := w.faults.tail.tail,
          log := w.log ++ [.set k v, .get registryKey], console := w.console }) := by
  obtain ⟨data, absent, faults, log, console⟩ := w
  simp only at hreg
  have hok1 : World.Reliable ⟨assocSet k v data, absent, faults.tail, log ++ [.set k v], console⟩ :=
    hok.of_tail rfl
  simp [AsyncStorageWrapper.prototype.setItem, storageSet_reliable hok,
    storageGet_reliable hok1, assocGet_assocSet_of_ne (Ne.symm hk), hreg,
    setItemUpdate_present _ hp, logAndRethrow]

/-- The world after a `setItem` on a key the registry does not mark present. -/
theorem setItem_fresh {w : World} {R : List (String × Val)} {k : String} (v : Val)
    (hreg : assocGet registryKey w.data = some (.obj R)) (hk : k ≠ registryKey)
    (hok : w.Reliable) (hp : assocGet k R ≠ some (.bool true)) :
    AsyncStorageWrapper.prototype.setItem k v w =
      (.ok .undefined,
        { data := assocSet registryKey (.obj (assignOwn k (.bool true) R)) (assocSet k v w.data),
          absent := w.absent, faults := w.faults.tail.tail.tail,
          log := w.log ++ [.set k v, .get registryKey,
            .set registryKey (.obj (assignOwn k (.bool true) R))],
          console := w.console }) := by
  obtain ⟨data, absent, faults, log, console⟩ := w
  simp only at hreg
  have hok1 : World.Reliable ⟨assocSet k v data, absent, faults.tail, log ++ [.set k v], console⟩ :=
    hok.of_tail rfl
  have hok2 : World.Reliable
      ⟨assocSet k v data, absent, faults.tail.tail, log ++ [.set k v, .get registryKey], console⟩ :=
    hok1.of_tail rfl
  simp [AsyncStorageWrapper.prototype.setItem, storageSet_reliable hok,
    storageGet_reliable hok1, assocGet_assocSet_of_ne (Ne.symm hk), hreg,
    setItemUpdate_fresh _ hp, storageSet_reliable hok2, logAndRethrow]

theorem removeItemUpdate_live {k : String} {R : List (String × Val)} (w : World)
    (hp : (objRead R k).typeof ≠ .undefined ∧ (objRead R k).isNull = false) :
    removeItemUpdate k (.obj R) w = storageSet registryKey (.obj (assignOwn k .null R)) w := by
  simp [removeItemUpdate, getProp, setProp, hp]

theorem removeItemUpdate_idle {k : String} {R : List (String × Val)} (w : World)
    (hp : ¬ ((objRead R k).typeof ≠ .undefined ∧ (objRead R k).isNull = false)) :
    removeItemUpdate k (.obj R) w = (.ok .undefined, w) := by
  unfold removeItemUpdate
  simp only [getProp]
  rw [if_neg hp]

/-- The world after a `removeItem` on a key that reads as defined and not null in
the registry. -/
theorem removeItem_live {w : World} {R : List (String × Val)} {k : String}
    (hreg : assocGet registryKey w.data = some (.obj R)) (hk : k ≠ registryKey)
    (hok : w.Reliable)
    (hp : (objRead R k).typeof ≠ .undefined ∧ (objRead R k).isNull = false) :
    AsyncStorageWrapper.prototype.removeItem k w =
      (.ok .undefined,
        { data := assocSet registryKey (.obj (assignOwn k .null R)) (assocErase k w.data),
          absent := w.absent, faults := w.faults.tail.tail.tail,
          log := w.log ++ [.remove k, .get registryKey,
            .set registryKey (.obj (assignOwn k .null R))],
          console := w.console }) := by
  obtain ⟨data, absent, faults, log, console⟩ := w
  simp only at hreg
  have hok1 : World.Reliable ⟨assocErase k data, absent, faults.tail, log ++ [.remove k], console⟩ :=
    hok.of_tail rfl
  have hok2 : World.Reliable
      ⟨assocErase k data, absent, faults.tail.tail, log ++ [.remove k, .get registryKey], console⟩ :=
    hok1.of_tail rfl
  simp [AsyncStorageWrapper.prototype.removeItem, storageRemove_reliable hok,
    storageGet_reliable hok1, assocGet_assocErase_of_ne (Ne.symm hk), hreg,
    removeItemUpdate_live _ hp, storageSet_reliable hok2, logAndRethrow]

/-- The world after a `removeItem` on a key that reads as undefined or null in the
registry. -/
theorem removeItem_idle {w : World} {R : List (String × Val)} {k : String}
    (hreg : assocGet registryKey w.data = some (.obj R)) (hk : k ≠ registryKey)
    (hok : w.Reliable)
    (hp : ¬ ((objRead R k).typeof ≠ .undefined ∧ (objRead R k).isNull = false)) :
    AsyncStorageWrapper.prototype.removeItem k w =
      (.ok .undefined,
        { data := assocErase k w.data, absent := w.absent, faults := w.faults.tail.tail,
          log := w.log ++ [.remove k, .get registryKey], console := w.console }) := by
  obtain ⟨data, absent, faults, log, console⟩ := w
  simp only at hreg
  have hok1 : World.Reliable ⟨assocErase k data, absent, faults.tail, log ++ [.remove k], console⟩ :=
    hok.of_tail rfl
  simp [AsyncStorageWrapper.prototype.removeItem, storageRemove_reliable hok,
    storageGet_reliable hok1, assocGet_assocErase_of_ne (Ne.symm hk), hreg,
    removeItemUpdate_idle _ hp, logAndRethrow]

/-! ## C1: postcondition of `setItem` -/

/-- For a key whose assignment creates or overwrites an entry (any key but
`__proto__`, and `__proto__` too when the registry has it as an own entry),
`setItem(k, v)` on a store whose registry is the map `R` and whose operations all
succeed resolves, stores `v` under `k` and leaves the registry `R` with `k`
present and every other entry unchanged. -/
theorem setItem_postcondition_of_assignable (w : World) (R : List (String × Val)) (k : String)
    (v : Val) (hreg : assocGet registryKey w.data = some (.obj R)) (hk : k ≠ registryKey)
    (hassign : k ≠ "__proto__" ∨ (assocGet k R).isSome = true) (hok : w.Reliable) :
    (AsyncStorageWrapper.prototype.setItem k v w).1 = .ok .undefined ∧
    assocGet k (AsyncStorageWrapper.prototype.setItem k v w).2.data = some v ∧
    ∃ R', assocGet registryKey (AsyncStorageWrapper.prototype.setItem k v w).2.data
        = some (.obj R') ∧
      assocGet k R' = some (.bool true) ∧ ∀ j, j ≠ k → assocGet j R' = assocGet j R := by
  by_cases hp : assocGet k R = some (.bool true)
  · rw [setItem_present v hreg hk hok hp]
    refine ⟨rfl, assocGet_assocSet_self _ _ _, R, ?_, hp, fun _ _ => rfl⟩
    simp only [assocGet_assocSet_of_ne (Ne.symm hk), hreg]
  · rw [setItem_fresh v hreg hk hok hp]
    refine ⟨rfl, ?_, assignOwn k (.bool true) R, assocGet_assocSet_self _ _ _,
      assocGet_assignOwn_self _ hassign, fun j hj => assocGet_assignOwn_of_ne hj _ _⟩
    simp only [assocGet_assocSet_of_ne hk, assocGet_assocSet_self]

/-- C1 fails at the key `__proto__`: on the registry `{}`, with every store
operation succeeding, `setItem("__proto__", "v")` resolves and stores the value,
but the assignment of line 66 creates no entry: the registry written back is `{}`
and has no present entry for `__proto__`. -/
theorem setItem_proto_not_registered :
    "__proto__" ≠ registryKey ∧
    (AsyncStorageWrapper.prototype.setItem "__proto__" (.str "v") emptyRegistryWorld).1
      = .ok .undefined ∧
    assocGet "__proto__"
      (AsyncStorageWrapper.prototype.setItem "__proto__" (.str "v") emptyRegistryWorld).2.data
      = some (.str "v") ∧
    (AsyncStorageWrapper.prototype.setItem "__proto__" (.str "v") emptyRegistryWorld).2.log
      = [.set "__proto__" (.str "v"), .get registryKey, .set registryKey (.obj [])] ∧
    assocGet registryKey
      (AsyncStorageWrapper.prototype.setItem "__proto__" (.str "v") emptyRegistryWorld).2.data
      = some (.obj []) ∧
    assocGet "__proto__" ([] : List (String × Val)) = none :=
  ⟨by decide, by rfl, by rfl, by rfl, by rfl, rfl⟩

/-! ## C2: `removeItem` tombstones a present key -/

/-- C2. On a store whose registry marks `k` present and whose operations all
succeed, `removeItem(k)` with `k` other than the registry key resolves, the
registry entry for `k` is then null and still a member of the map, every other
entry is unchanged, and a following `getItem(k)` yields the absent marker. -/
theorem removeItem_tombstones_present (w : World) (R : List (String × Val)) (k : String)
    (hreg : assocGet registryKey w.data = some (.obj R))
    (hp : assocGet k R = some (.bool true)) (hk : k ≠ registryKey) (hok : w.Reliable) :
    (AsyncStorageWrapper.prototype.removeItem k w).1 = .ok .undefined ∧
    (∃ R', assocGet registryKey (AsyncStorageWrapper.prototype.removeItem k w).2.data
        = some (.obj R') ∧
      assocGet k R' = some .null ∧ ∀ j, j ≠ k → assocGet j R' = assocGet j R) ∧
    (AsyncStorageWrapper.prototype.getItem k
      (AsyncStorageWrapper.prototype.removeItem k w).2).1 = .ok w.absent.toVal := by
  have hlive : (objRead R k).typeof ≠ .undefined ∧ (objRead R k).isNull = false := by
    simp [objRead, hp, Read.typeof, Read.isNull, Val.typeof, Val.isNull]
  rw [removeItem_live hreg hk hok hlive]
  refine ⟨rfl, ⟨assignOwn k .null R, assocGet_assocSet_self _ _ _,
    assocGet_assignOwn_self _ (Or.inr (by rw [hp]; rfl)),
    fun j hj => assocGet_assignOwn_of_ne hj _ _⟩, ?_⟩
  have hok3 : World.Reliable
      { data := assocSet registryKey (.obj (assignOwn k .null R)) (assocErase k w.data),
        absent := w.absent, faults := w.faults.tail.tail.tail,
        log := w.log ++ [.remove k, .get registryKey,
          .set registryKey (.obj (assignOwn k .null R))],
        console := w.console } :=
    hok.of_tail3 rfl
  simp only [AsyncStorageWrapper.prototype.getItem, storageGet_reliable hok3,
    assocGet_assocSet_of_ne hk, assocGet_assocErase_self, Option.getD_none]

/-- Witness for C2: on the registry `{x: true}`, `removeItem("x")` gives the
registry `{x: null}` and `getItem("x")` is absent. -/
theorem removeItem_tombstones_present_witness :
    (assocGet registryKey presentWorld.data = some (.obj [("x", .bool true)]) ∧
      assocGet "x" [("x", Val.bool true)] = some (.bool true) ∧ "x" ≠ registryKey ∧
      presentWorld.Reliable) ∧
    assocGet registryKey (AsyncStorageWrapper.prototype.removeItem "x" presentWorld).2.data
      = some (.obj [("x", .null)]) ∧
    ((AsyncStorageWrapper.prototype.removeItem "x" presentWorld).1 = .ok .undefined ∧
      (∃ R', assocGet registryKey (AsyncStorageWrapper.prototype.removeItem "x" presentWorld).2.data
          = some (.obj R') ∧
        assocGet "x" R' = some .null ∧
        ∀ j, j ≠ "x" → assocGet j R' = assocGet j [("x", Val.bool true)]) ∧
      (AsyncStorageWrapper.prototype.getItem "x"
        (AsyncStorageWrapper.prototype.removeItem "x" presentWorld).2).1
        = .ok presentWorld.absent.toVal) :=
  ⟨⟨rfl, rfl, by decide, by simp [World.Reliable, presentWorld]⟩, by rfl,
    removeItem_tombstones_present presentWorld [("x", .bool true)] "x" rfl rfl (by decide)
      (by simp [World.Reliable, presentWorld])⟩

/-! ## C3: the registry is written once -/

theorem registryWrites_append (l l' : List Op) :
    registryWrites (l ++ l') = registryWrites l + registryWrites l' := by
  simp [registryWrites]

theorem isRegistryWrite_set_of_ne {k : String} (hk : k ≠ registryKey) (v : Val) :
    Op.isRegistryWrite (.set k v) = false := by
  simp [Op.isRegistryWrite, hk]

/-- For a key whose assignment creates or overwrites an entry, on a store whose
operations all succeed and whose registry is the map `R`: if `R` does not mark `k`
present, `setItem(k, v1)` writes the registry key once and a following
`setItem(k, v2)` issues exactly the write of `k` and the registry read, so the two
calls write the registry key once in total.  If `R` marks `k` present,
`setItem(k, v1)` issues exactly the write of `k` and the registry read. -/
theorem setItem_registry_written_once_of_assignable (w : World) (R : List (String × Val))
    (k : String) (v1 v2 : Val) (hreg : assocGet registryKey w.data = some (.obj R))
    (hk : k ≠ registryKey) (hassign : k ≠ "__proto__" ∨ (assocGet k R).isSome = true)
    (hok : w.Reliable) :
    (assocGet k R ≠ some (.bool true) →
      registryWrites (AsyncStorageWrapper.prototype.setItem k v1 w).2.log
        = registryWrites w.log + 1 ∧
      (AsyncStorageWrapper.prototype.setItem k v2
          (AsyncStorageWrapper.prototype.setItem k v1 w).2).2.log
        = (AsyncStorageWrapper.prototype.setItem k v1 w).2.log ++ [.set k v2, .get registryKey] ∧
      registryWrites (AsyncStorageWrapper.prototype.setItem k v2
          (AsyncStorageWrapper.prototype.setItem k v1 w).2).2.log
        = registryWrites w.log + 1) ∧
    (assocGet k R = some (.bool true) →
      (AsyncStorageWrapper.prototype.setItem k v1 w).2.log
        = w.log ++ [.set k v1, .get registryKey] ∧
      registryWrites (AsyncStorageWrapper.prototype.setItem k v1 w).2.log
        = registryWrites w.log) := by
  constructor
  · intro hp
    have h1 := setItem_fresh v1 hreg hk hok hp
    have hok1 : (AsyncStorageWrapper.prototype.setItem k v1 w).2.Reliable := by
      rw [h1]
      exact hok.of_tail3 rfl
    have hreg1 : assocGet registryKey (AsyncStorageWrapper.prototype.setItem k v1 w).2.data
        = some (.obj (assignOwn k (.bool true) R)) := by
      rw [h1]
      exact assocGet_assocSet_self _ _ _
    have h2 := setItem_present v2 hreg1 hk hok1 (assocGet_assignOwn_self _ hassign)
    have hw1 : registryWrites (AsyncStorageWrapper.prototype.setItem k v1 w).2.log
        = registryWrites w.log + 1 := by
      rw [h1]
      simp [registryWrites, Op.isRegistryWrite, hk]
    refine ⟨hw1, by rw [h2], ?_⟩
    rw [h2]
    simp only [registryWrites_append, hw1]
    simp [registryWrites, Op.isRegistryWrite, hk]
  · intro hp
    rw [setItem_present v1 hreg hk hok hp]
    refine ⟨rfl, ?_⟩
    simp [registryWrites, Op.isRegistryWrite, hk]

/-- C3 fails at the key `__proto__`: on the registry `{}`, with every store
operation succeeding, `setItem("__proto__", "v1")` followed by
`setItem("__proto__", "v2")` writes the registry key twice: the second call reads
`{}` back, does not find the key present and issues a second registry write, six
operations in all. -/
theorem setItem_proto_registry_written_twice :
    (AsyncStorageWrapper.prototype.setItem "__proto__" (.str "v2")
        (AsyncStorageWrapper.prototype.setItem "__proto__" (.str "v1")
          emptyRegistryWorld).2).1 = .ok .undefined ∧
    (AsyncStorageWrapper.prototype.setItem "__proto__" (.str "v2")
        (AsyncStorageWrapper.prototype.setItem "__proto__" (.str "v1")
          emptyRegistryWorld).2).2.log
      = [.set "__proto__" (.str "v1"), .get registryKey, .set registryKey (.obj []),
          .set "__proto__" (.str "v2"), .get registryKey, .set registryKey (.obj [])] ∧
    registryWrites
        (AsyncStorageWrapper.prototype.setItem "__proto__" (.str "v2")
          (AsyncStorageWrapper.prototype.setItem "__proto__" (.str "v1")
            emptyRegistryWorld).2).2.log
      = registryWrites emptyRegistryWorld.log + 2 :=
  ⟨by rfl, by rfl, by rfl⟩

/-! ## C4: validation of the store at construction -/

/-- C4. Construction throws synchronously exactly when the store argument is
undefined, null, or has a `get`, `set` or `remove` that is not a function; what is
thrown is then a `TypeError`, no store operation has been issued and the callback
has not been invoked. -/
theorem construct_validation (Storage : StorageArg) (w : World) :
    ((AsyncStorageWrapper Storage w).thrown.isSome = true ↔
      (Storage = .undefined ∨ Storage = .null ∨
        ∃ g s r, Storage = .object g s r ∧
          (g ≠ .function ∨ s ≠ .function ∨ r ≠ .function))) ∧
    (∀ e, (AsyncStorageWrapper Storage w).thrown = some e →
      (∃ msg, e = .typeError msg) ∧ (AsyncStorageWrapper Storage w).world = w ∧
        (AsyncStorageWrapper Storage w).callbacks = []) := by
  cases Storage with
  | undefined =>
    refine ⟨by simp [AsyncStorageWrapper], ?_⟩
    intro e he
    simp only [AsyncStorageWrapper, Option.some.injEq] at he
    exact ⟨⟨_, he.symm⟩, rfl, rfl⟩
  | null =>
    refine ⟨by simp [AsyncStorageWrapper], ?_⟩
    intro e he
    simp only [AsyncStorageWrapper, Option.some.injEq] at he
    exact ⟨⟨_, he.symm⟩, rfl, rfl⟩
  | object g s r =>
    by_cases hbad : g ≠ .function ∨ s ≠ .function ∨ r ≠ .function
    · refine ⟨?_, ?_⟩
      · simp only [AsyncStorageWrapper, if_pos hbad, Option.isSome_some, true_iff]
        exact Or.inr (Or.inr ⟨g, s, r, rfl, hbad⟩)
      · intro e he
        have hc : AsyncStorageWrapper (.object g s r) w =
            { thrown := some (.typeError "Storage is not property defined (it needs to have get, set, and remove functions)"),
              world := w, callbacks := [] } := by
          simp only [AsyncStorageWrapper, if_pos hbad]
        rw [hc] at he ⊢
        simp only [Option.some.injEq] at he
        exact ⟨⟨_, he.symm⟩, rfl, rfl⟩
    · have hnone : (AsyncStorageWrapper (.object g s r) w).thrown = none := by
        simp only [AsyncStorageWrapper, if_neg hbad]
        split
        · rfl
        · split
          · split <;> rfl
          · rfl
      refine ⟨?_, ?_⟩
      · rw [hnone]
        simp only [Option.isSome_none, Bool.false_eq_true, false_iff]
        rintro (h | h | ⟨g', s', r', heq, hb⟩)
        · cases h
        · cases h
        · cases heq
          exact hbad hb
      · intro e he
        rw [hnone] at he
        cases he

/-- Witness for C4: a store with `get` and `set` but no `remove`. -/
theorem construct_validation_witness :
    (AsyncStorageWrapper (.object .function .function .undefined) emptyRegistryWorld).thrown
      = some (.typeError "Storage is not property defined (it needs to have get, set, and remove functions)") ∧
    (∃ msg, Err.typeError "Storage is not property defined (it needs to have get, set, and remove functions)"
        = .typeError msg) ∧
    (AsyncStorageWrapper (.object .function .function .undefined) emptyRegistryWorld).world
      = emptyRegistryWorld ∧
    (AsyncStorageWrapper (.object .function .function .undefined) emptyRegistryWorld).callbacks
      = [] :=
  ⟨rfl, (construct_validation (.object .function .function .undefined) emptyRegistryWorld).2
    (.typeError "Storage is not property defined (it needs to have get, set, and remove functions)")
    rfl⟩

/-! ## C5: construction creates the registry when it is missing -/

/-- C5. For a valid store whose operations all succeed, where the read of the
registry key yields `v`: construction throws nothing; if `v` is undefined or null
it issues the read and then a write of the empty map under the registry key, and
calls back once with success and the empty map; otherwise it issues the read only,
leaves the store content as it was and calls back once with success and `v`; in
both cases every key other than the registry key is unchanged. -/
theorem construct_initialises_registry (w : World) (v : Val) (hok : w.Reliable)
    (hv : (storageGet registryKey w).1 = .ok v) :
    (AsyncStorageWrapper validStorage w).thrown = none ∧
    ((v.typeof = .undefined ∨ v.isNull = true) →
      (AsyncStorageWrapper validStorage w).callbacks = [.success (.obj [])] ∧
      (AsyncStorageWrapper validStorage w).world.log
        = w.log ++ [.get registryKey, .set registryKey (.obj [])] ∧
      assocGet registryKey (AsyncStorageWrapper validStorage w).world.data = some (.obj [])) ∧
    (¬ (v.typeof = .undefined ∨ v.isNull = true) →
      (AsyncStorageWrapper validStorage w).callbacks = [.success v] ∧
      (AsyncStorageWrapper validStorage w).world.log = w.log ++ [.get registryKey] ∧
      (AsyncStorageWrapper validStorage w).world.data = w.data) ∧
    (∀ j, j ≠ registryKey →
      assocGet j (AsyncStorageWrapper validStorage w).world.data = assocGet j w.data) := by
  obtain ⟨data, absent, faults, log, console⟩ := w
  have hok1 : World.Reliable ⟨data, absent, faults.tail, log ++ [.get registryKey], console⟩ :=
    hok.of_tail rfl
  rw [storageGet_reliable hok] at hv
  simp only [Except.ok.injEq] at hv
  by_cases hn : v.typeof = .undefined ∨ v.isNull = true
  · have hc : AsyncStorageWrapper validStorage ⟨data, absent, faults, log, console⟩ =
        { thrown := none,
          world := ⟨assocSet registryKey (.obj []) data, absent, faults.tail.tail,
            log ++ [.get registryKey, .set registryKey (.obj [])], console⟩,
          callbacks := [.success (.obj [])] } := by
      simp [AsyncStorageWrapper, validStorage, storageGet_reliable hok, hv, hn,
        storageSet_reliable hok1]
    rw [hc]
    refine ⟨rfl, fun _ => ⟨rfl, rfl, assocGet_assocSet_self _ _ _⟩, fun h => absurd hn h, ?_⟩
    intro j hj
    exact assocGet_assocSet_of_ne hj _ _
  · have hc : AsyncStorageWrapper validStorage ⟨data, absent, faults, log, console⟩ =
        { thrown := none,
          world := ⟨data, absent, faults.tail, log ++ [.get registryKey], console⟩,
          callbacks := [.success v] } := by
      simp [AsyncStorageWrapper, validStorage, storageGet_reliable hok, hv, hn]
    rw [hc]
    exact ⟨rfl, fun h => absurd h hn, fun _ => ⟨rfl, rfl, rfl⟩, fun _ _ => rfl⟩

/-- Witness for C5: construction over a store without a registry. -/
theorem construct_initialises_registry_witness :
    (freshWorld.Reliable ∧ (storageGet registryKey freshWorld).1 = .ok .undefined) ∧
    (AsyncStorageWrapper validStorage freshWorld).world.data
      = [("other", .num 7), (registryKey, .obj [])] ∧
    ((AsyncStorageWrapper validStorage freshWorld).thrown = none ∧
      ((Val.undefined.typeof = .undefined ∨ Val.undefined.isNull = true) →
        (AsyncStorageWrapper validStorage freshWorld).callbacks = [.success (.obj [])] ∧
        (AsyncStorageWrapper validStorage freshWorld).world.log
          = freshWorld.log ++ [.get registryKey, .set registryKey (.obj [])] ∧
        assocGet registryKey (AsyncStorageWrapper validStorage freshWorld).world.data
          = some (.obj [])) ∧
      (¬ (Val.undefined.typeof = .undefined ∨ Val.undefined.isNull = true) →
        (AsyncStorageWrapper validStorage freshWorld).callbacks = [.success .undefined] ∧
        (AsyncStorageWrapper validStorage freshWorld).world.log
          = freshWorld.log ++ [.get registryKey] ∧
        (AsyncStorageWrapper validStorage freshWorld).world.data = freshWorld.data) ∧
      (∀ j, j ≠ registryKey →
        assocGet j (AsyncStorageWrapper validStorage freshWorld).world.data
          = assocGet j freshWorld.data)) :=
  ⟨⟨by simp [World.Reliable, freshWorld], rfl⟩, by rfl,
    construct_initialises_registry freshWorld .undefined (by simp [World.Reliable, freshWorld])
      rfl⟩

/-! ## C9: a failed registry write during construction -/

/-- A failed read of the registry during construction is passed to the callback. -/
theorem construct_read_failure_reported (w : World) (e : Err) (rest : List (Option Err))
    (hf : w.faults = some e :: rest) :
    (AsyncStorageWrapper validStorage w).callbacks = [.failure e] := by
  simp [AsyncStorageWrapper, validStorage, storageGet, World.nextFault, hf]

/-- C9. When the read of the registry yields no value and the write of the empty
registry rejects, construction issues both operations and never invokes the
callback: neither with the error nor with a success. -/
theorem construct_write_failure_unreported :
    (AsyncStorageWrapper validStorage writeFailsWorld).thrown = none ∧
    (AsyncStorageWrapper validStorage writeFailsWorld).world.log
      = [.get registryKey, .set registryKey (.obj [])] ∧
    (AsyncStorageWrapper validStorage writeFailsWorld).callbacks = [] :=
  ⟨rfl, rfl, rfl⟩

/-! ## C6: a failing store operation aborts the call -/

theorem setItemUpdate_world (key : String) (storageKeys : Val) (w : World) :
    (∃ u, setItemUpdate key storageKeys w = storageSet registryKey u w) ∨
      (∃ r, setItemUpdate key storageKeys w = (r, w)) := by
  unfold setItemUpdate
  split
  · exact Or.inr ⟨_, rfl⟩
  · split
    · split
      · exact Or.inr ⟨_, rfl⟩
      · exact Or.inl ⟨_, rfl⟩
    · exact Or.inr ⟨_, rfl⟩

theorem removeItemUpdate_world (key : String) (storageKeys : Val) (w : World) :
    (∃ u, removeItemUpdate key storageKeys w = storageSet registryKey u w) ∨
      (∃ r, removeItemUpdate key storageKeys w = (r, w)) := by
  unfold removeItemUpdate
  split
  · exact Or.inr ⟨_, rfl⟩
  · split
    · split
      · exact Or.inr ⟨_, rfl⟩
      · exact Or.inl ⟨_, rfl⟩
    · exact Or.inr ⟨_, rfl⟩

theorem logAndRethrow_log (x : Except Err Val × World) : (logAndRethrow x).2.log = x.2.log := by
  obtain ⟨r, w⟩ := x
  cases r <;> rfl

theorem logAndRethrow_data (x : Except Err Val × World) : (logAndRethrow x).2.data = x.2.data := by
  obtain ⟨r, w⟩ := x
  cases r <;> rfl

theorem logAndRethrow_result (x : Except Err Val × World) : (logAndRethrow x).1 = x.1 := by
  obtain ⟨r, w⟩ := x
  cases r <;> rfl

/-- The last step of a call, run on a world whose next outcome is `f`: either it
issues nothing, or it issues one operation and rejects with the scheduled error. -/
theorem update_tail (x : Except Err Val × World) (w : World) (f : Option Err)
    (rest : List (Option Err)) (hf : w.faults = f :: rest)
    (h : (∃ u, x = storageSet registryKey u w) ∨ (∃ r, x = (r, w))) :
    (logAndRethrow x).2.log.length = w.log.length ∨
      ((logAndRethrow x).2.log.length = w.log.length + 1 ∧
        ∀ e, f = some e →
          (logAndRethrow x).1 = .error e ∧ (logAndRethrow x).2.console = w.console ++ [e]) := by
  rw [logAndRethrow_log]
  rcases h with ⟨u, rfl⟩ | ⟨r, rfl⟩
  · right
    cases f with
    | none => simp [storageSet, World.nextFault, hf, World.issue]
    | some e => simp [storageSet, World.nextFault, hf, World.issue, logAndRethrow]
  · left
    rfl

theorem setItem_faulty (w : World) (key : String) (value : Val) (e : Err) (n : Nat)
    (rest : List (Option Err)) (hf : w.faults = List.replicate n none ++ some e :: rest)
    (hlen : w.log.length + n + 1 ≤ (AsyncStorageWrapper.prototype.setItem key value w).2.log.length) :
    (AsyncStorageWrapper.prototype.setItem key value w).1 = .error e ∧
    (AsyncStorageWrapper.prototype.setItem key value w).2.log.length = w.log.length + n + 1 ∧
    (AsyncStorageWrapper.prototype.setItem key value w).2.console = w.console ++ [e] := by
  obtain ⟨data, absent, faults, log, console⟩ := w
  simp only at hf
  subst hf
  rcases n with _ | _ | _ | n
  · simp [AsyncStorageWrapper.prototype.setItem, storageSet, World.nextFault, World.issue,
      logAndRethrow]
  · simp [AsyncStorageWrapper.prototype.setItem, storageSet, storageGet, World.nextFault,
      World.issue, logAndRethrow, List.replicate]
  · revert hlen
    simp only [AsyncStorageWrapper.prototype.setItem, storageSet, storageGet, World.nextFault,
      World.issue, List.replicate, List.cons_append, List.nil_append, List.tail_cons]
    rcases update_tail _ ⟨assocSet key value data, absent, some e :: rest,
        log ++ [.set key value] ++ [.get registryKey], console⟩ (some e) rest rfl
        (setItemUpdate_world key ((assocGet registryKey (assocSet key value data)).getD
          absent.toVal) _) with h | ⟨h1, h2⟩
    · rw [h]
      simp only [List.length_append, List.length_singleton]
      omega
    · intro _
      refine ⟨(h2 e rfl).1, ?_, (h2 e rfl).2⟩
      rw [h1]
      simp only [List.length_append, List.length_singleton]
  · revert hlen
    simp only [AsyncStorageWrapper.prototype.setItem, storageSet, storageGet, World.nextFault,
      World.issue, List.replicate, List.cons_append, List.nil_append, List.tail_cons]
    rcases update_tail _ ⟨assocSet key value data, absent,
        none :: (List.replicate n none ++ some e :: rest),
        log ++ [.set key value] ++ [.get registryKey], console⟩ none _ rfl
        (setItemUpdate_world key ((assocGet registryKey (assocSet key value data)).getD
          absent.toVal) _) with h | ⟨h1, _⟩
    · rw [h]
      simp only [List.length_append, List.length_singleton]
      omega
    · rw [h1]
      simp only [List.length_append, List.length_singleton]
      omega

theorem removeItem_faulty (w : World) (key : String) (e : Err) (n : Nat)
    (rest : List (Option Err)) (hf : w.faults = List.replicate n none ++ some e :: rest)
    (hlen : w.log.length + n + 1 ≤ (AsyncStorageWrapper.prototype.removeItem key w).2.log.length) :
    (AsyncStorageWrapper.prototype.removeItem key w).1 = .error e ∧
    (AsyncStorageWrapper.prototype.removeItem key w).2.log.length = w.log.length + n + 1 ∧
    (AsyncStorageWrapper.prototype.removeItem key w).2.console = w.console ++ [e] := by
  obtain ⟨data, absent, faults, log, console⟩ := w
  simp only at hf
  subst hf
  rcases n with _ | _ | _ | n
  · simp [AsyncStorageWrapper.prototype.removeItem, storageRemove, World.nextFault, World.issue,
      logAndRethrow]
  · simp [AsyncStorageWrapper.prototype.removeItem, storageRemove, storageGet, World.nextFault,
      World.issue, logAndRethrow, List.replicate]
  · revert hlen
    simp only [AsyncStorageWrapper.prototype.removeItem, storageRemove, storageGet, World.nextFault,
      World.issue, List.replicate, List.cons_append, List.nil_append, List.tail_cons]
    rcases update_tail _ ⟨assocErase key data, absent, some e :: rest,
        log ++ [.remove key] ++ [.get registryKey], console⟩ (some e) rest rfl
        (removeItemUpdate_world key ((assocGet registryKey (assocErase key data)).getD
          absent.toVal) _) with h | ⟨h1, h2⟩
    · rw [h]
      simp only [List.length_append, List.length_singleton]
      omega
    · intro _
      refine ⟨(h2 e rfl).1, ?_, (h2 e rfl).2⟩
      rw [h1]
      simp only [List.length_append, List.length_singleton]
  · revert hlen
    simp only [AsyncStorageWrapper.prototype.removeItem, storageRemove, storageGet, World.nextFault,
      World.issue, List.replicate, List.cons_append, List.nil_append, List.tail_cons]
    rcases update_tail _ ⟨assocErase key data, absent,
        none :: (List.replicate n none ++ some e :: rest),
        log ++ [.remove key] ++ [.get registryKey], console⟩ none _ rfl
        (removeItemUpdate_world key ((assocGet registryKey (assocErase key data)).getD
          absent.toVal) _) with h | ⟨h1, _⟩
    · rw [h]
      simp only [List.length_append, List.length_singleton]
      omega
    · rw [h1]
      simp only [List.length_append, List.length_singleton]
      omega

/-- C6. Let the first `n` store operations to come succeed and the next one reject
with `e`.  If `setItem(key, value)` issues at least `n + 1` operations, then it
rejects with exactly `e`, issues exactly `n + 1` operations, so none after the
failing one, and logs `e`; the same holds for `removeItem(key)`.  When `n = 0` the
only operation issued is the write (or removal) of `key` and the store content is
unchanged, so the registry is neither read nor written; when `n = 1` the
operations issued are that write (or removal) and the registry read, so the
registry is not written. -/
theorem failure_aborts_and_propagates (w : World) (key : String) (value : Val) (e : Err)
    (n : Nat) (rest : List (Option Err))
    (hf : w.faults = List.replicate n none ++ some e :: rest) :
    (w.log.length + n + 1 ≤ (AsyncStorageWrapper.prototype.setItem key value w).2.log.length →
      (AsyncStorageWrapper.prototype.setItem key value w).1 = .error e ∧
      (AsyncStorageWrapper.prototype.setItem key value w).2.log.length = w.log.length + n + 1 ∧
      (AsyncStorageWrapper.prototype.setItem key value w).2.console = w.console ++ [e]) ∧
    (w.log.length + n + 1 ≤ (AsyncStorageWrapper.prototype.removeItem key w).2.log.length →
      (AsyncStorageWrapper.prototype.removeItem key w).1 = .error e ∧
      (AsyncStorageWrapper.prototype.removeItem key w).2.log.length = w.log.length + n + 1 ∧
      (AsyncStorageWrapper.prototype.removeItem key w).2.console = w.console ++ [e]) ∧
    (n = 0 →
      ((AsyncStorageWrapper.prototype.setItem key value w).1 = .error e ∧
        (AsyncStorageWrapper.prototype.setItem key value w).2.log = w.log ++ [.set key value] ∧
        (AsyncStorageWrapper.prototype.setItem key value w).2.data = w.data) ∧
      ((AsyncStorageWrapper.prototype.removeItem key w).1 = .error e ∧
        (AsyncStorageWrapper.prototype.removeItem key w).2.log = w.log ++ [.remove key] ∧
        (AsyncStorageWrapper.prototype.removeItem key w).2.data = w.data)) ∧
    (n = 1 →
      ((AsyncStorageWrapper.prototype.setItem key value w).1 = .error e ∧
        (AsyncStorageWrapper.prototype.setItem key value w).2.log
          = w.log ++ [.set key value, .get registryKey]) ∧
      ((AsyncStorageWrapper.prototype.removeItem key w).1 = .error e ∧
        (AsyncStorageWrapper.prototype.removeItem key w).2.log
          = w.log ++ [.remove key, .get registryKey])) := by
  refine ⟨setItem_faulty w key value e n rest hf, removeItem_faulty w key e n rest hf, ?_, ?_⟩
  · intro hn
    subst hn
    obtain ⟨data, absent, faults, log, console⟩ := w
    simp only [List.replicate, List.nil_append] at hf
    subst hf
    simp [AsyncStorageWrapper.prototype.setItem, AsyncStorageWrapper.prototype.removeItem,
      storageSet, storageRemove, World.nextFault, World.issue, logAndRethrow]
  · intro hn
    subst hn
    obtain ⟨data, absent, faults, log, console⟩ := w
    simp only [List.replicate, List.cons_append, List.nil_append] at hf
    subst hf
    simp [AsyncStorageWrapper.prototype.setItem, AsyncStorageWrapper.prototype.removeItem,
      storageSet, storageRemove, storageGet, World.nextFault, World.issue, logAndRethrow]

/-- Witness for C6: the registry read of `setItem("a", "v1")` rejects. -/
theorem failure_aborts_and_propagates_witness :
    (readFailsWorld.faults = List.replicate 1 none ++ [some (.rejection (.str "io"))] ∧
      readFailsWorld.log.length + 1 + 1
        ≤ (AsyncStorageWrapper.prototype.setItem "a" (.str "v1") readFailsWorld).2.log.length) ∧
    ((AsyncStorageWrapper.prototype.setItem "a" (.str "v1") readFailsWorld).1
        = .error (.rejection (.str "io")) ∧
      (AsyncStorageWrapper.prototype.setItem "a" (.str "v1") readFailsWorld).2.log.length
        = readFailsWorld.log.length + 1 + 1 ∧
      (AsyncStorageWrapper.prototype.setItem "a" (.str "v1") readFailsWorld).2.console
        = readFailsWorld.console ++ [.rejection (.str "io")]) :=
  ⟨⟨rfl, by decide⟩,
    (failure_aborts_and_propagates readFailsWorld "a" (.str "v1") (.rejection (.str "io")) 1 []
      rfl).1 (by decide)⟩

/-! ## Store operations under an arbitrary schedule -/

theorem storageGet_world (k : String) (w : World) :
    (storageGet k w).2.data = w.data ∧ (storageGet k w).2.absent = w.absent := by
  unfold storageGet
  split <;> exact ⟨rfl, rfl⟩

theorem storageGet_ok {k : String} {w : World} {v : Val} (h : (storageGet k w).1 = .ok v) :
    v = (assocGet k w.data).getD w.absent.toVal := by
  unfold storageGet at h
  split at h
  · cases h
  · simp only [Except.ok.injEq] at h
    exact h.symm

theorem storageSet_world (k : String) (v : Val) (w : World) :
    (((storageSet k v w).1 = .ok .undefined ∧ (storageSet k v w).2.data = assocSet k v w.data) ∨
      ((∃ e, (storageSet k v w).1 = .error e) ∧ (storageSet k v w).2.data = w.data)) ∧
    (storageSet k v w).2.absent = w.absent := by
  unfold storageSet
  split
  · exact ⟨Or.inr ⟨⟨_, rfl⟩, rfl⟩, rfl⟩
  · exact ⟨Or.inl ⟨rfl, rfl⟩, rfl⟩

theorem storageRemove_world (k : String) (w : World) :
    (((storageRemove k w).1 = .ok .undefined ∧ (storageRemove k w).2.data = assocErase k w.data) ∨
      ((∃ e, (storageRemove k w).1 = .error e) ∧ (storageRemove k w).2.data = w.data)) ∧
    (storageRemove k w).2.absent = w.absent := by
  unfold storageRemove
  split
  · exact ⟨Or.inr ⟨⟨_, rfl⟩, rfl⟩, rfl⟩
  · exact ⟨Or.inl ⟨rfl, rfl⟩, rfl⟩

theorem getProp_absent (a : Absent) (k : String) : ∃ e, getProp a.toVal k = .error e := by
  cases a <;> exact ⟨_, rfl⟩

/-! ## C7: the registry entry after `removeItem` -/

/-- C7 as stated fails: on the registry `{}`, where `x` is unknown,
`removeItem("x")` resolves and the registry afterwards has no null entry for `x`. -/
theorem removeItem_unknown_stays_unknown :
    (AsyncStorageWrapper.prototype.removeItem "x" emptyRegistryWorld).1 = .ok .undefined ∧
    ¬ ∃ R', assocGet registryKey
        (AsyncStorageWrapper.prototype.removeItem "x" emptyRegistryWorld).2.data = some (.obj R') ∧
      assocGet "x" R' = some .null := by
  refine ⟨rfl, ?_⟩
  rintro ⟨R', h1, h2⟩
  have hd : assocGet registryKey
      (AsyncStorageWrapper.prototype.removeItem "x" emptyRegistryWorld).2.data
      = some (.obj []) := rfl
  rw [hd] at h1
  simp only [Option.some.injEq, Val.obj.injEq] at h1
  subst h1
  simp [assocGet] at h2

/-- On the registry `{}`, `removeItem("toString")` finds the inherited
`Object.prototype.toString`, which is defined and not null, and writes the
registry `{toString: null}` although `toString` was not in the dictionary. -/
theorem removeItem_inherited_name_tombstoned :
    assocGet registryKey
      (AsyncStorageWrapper.prototype.removeItem "toString" emptyRegistryWorld).2.data
      = some (.obj [("toString", .null)]) := by
  rfl

/-- C7, amended. On a store whose registry is the map `R`, when `removeItem(k)`
resolves the registry is a map `R'` such that: if the entry for `k` was present or
tombstoned it is now tombstoned (a member with value null); if `k` was unknown and
is not a name inherited from `Object.prototype` the registry is unchanged; every
other entry is unchanged; and no key of `R` is missing from `R'`. -/
theorem removeItem_registry_entry (w w' : World) (R : List (String × Val)) (k : String)
    (r : Val) (hreg : assocGet registryKey w.data = some (.obj R))
    (hres : AsyncStorageWrapper.prototype.removeItem k w = (.ok r, w')) :
    ∃ R', assocGet registryKey w'.data = some (.obj R') ∧
      (assocGet k R = some (.bool true) ∨ assocGet k R = some .null →
        assocGet k R' = some .null) ∧
      (assocGet k R = none → k ≠ "__proto__" → objectPrototypeMembers.contains k = false →
        R' = R) ∧
      (∀ j, j ≠ k → assocGet j R' = assocGet j R) ∧
      (∀ j, (assocGet j R).isSome = true → (assocGet j R').isSome = true) := by
  simp only [AsyncStorageWrapper.prototype.removeItem] at hres
  have hrem := storageRemove_world k w
  rcases h1 : storageRemove k w with ⟨r1, w1⟩
  rw [h1] at hres hrem
  cases r1 with
  | error e => simp [logAndRethrow] at hres
  | ok x =>
    simp only at hres hrem
    obtain ⟨hd1, ha1⟩ := hrem
    have hd1 : w1.data = assocErase k w.data := by
      rcases hd1 with ⟨_, h⟩ | ⟨⟨e, he⟩, _⟩
      · exact h
      · cases he
    have hget := storageGet_world registryKey w1
    have hgv := @storageGet_ok registryKey w1
    rcases h2 : storageGet registryKey w1 with ⟨r2, w2⟩
    rw [h2] at hres hget hgv
    cases r2 with
    | error e => simp [logAndRethrow] at hres
    | ok sk =>
      simp only at hres hget hgv
      have hsk := hgv rfl
      rw [hd1, ha1] at hsk
      by_cases hk : k = registryKey
      · subst hk
        rw [assocGet_assocErase_self] at hsk
        simp only [Option.getD_none] at hsk
        obtain ⟨e, he⟩ := getProp_absent w.absent registryKey
        rw [hsk] at hres
        simp [removeItemUpdate, he, logAndRethrow] at hres
      · rw [assocGet_assocErase_of_ne (Ne.symm hk), hreg] at hsk
        simp only [Option.getD_some] at hsk
        subst hsk
        have hw2 : assocGet registryKey w2.data = some (.obj R) := by
          rw [hget.1, hd1, assocGet_assocErase_of_ne (Ne.symm hk), hreg]
        by_cases hlive : (objRead R k).typeof ≠ .undefined ∧ (objRead R k).isNull = false
        · rw [removeItemUpdate_live _ hlive] at hres
          have hset := (storageSet_world registryKey (.obj (assignOwn k .null R)) w2).1
          have hw' : w'.data = (storageSet registryKey (.obj (assignOwn k .null R)) w2).2.data := by
            rw [← logAndRethrow_data, hres]
          have hr' : (storageSet registryKey (.obj (assignOwn k .null R)) w2).1 = .ok r := by
            rw [← logAndRethrow_result, hres]
          rcases hset with ⟨_, hd⟩ | ⟨⟨e, he⟩, _⟩
          · refine ⟨assignOwn k .null R, ?_, ?_, ?_,
              fun j hj => assocGet_assignOwn_of_ne hj _ _, fun j hj => isSome_assocGet_assignOwn hj⟩
            · rw [hw', hd, assocGet_assocSet_self]
            · intro hown
              refine assocGet_assignOwn_self _ (Or.inr ?_)
              rcases hown with h | h <;> rw [h] <;> rfl
            · intro hnone hproto hmem
              rw [objRead_of_not_inherited hproto hmem hnone] at hlive
              exact absurd rfl hlive.1
          · rw [he] at hr'
            cases hr'
        · rw [removeItemUpdate_idle _ hlive] at hres
          simp only [logAndRethrow, Prod.mk.injEq] at hres
          obtain ⟨_, hww⟩ := hres
          subst hww
          refine ⟨R, hw2, ?_, fun _ _ _ => rfl, fun _ _ => rfl, fun _ hj => hj⟩
          rintro (h | h)
          · exfalso
            apply hlive
            simp [objRead, h, Read.typeof, Read.isNull, Val.typeof, Val.isNull]
          · exact h

/-- Witness for C7: `removeItem("x")` on the registry `{x: true}`. -/
theorem removeItem_registry_entry_witness :
    (assocGet registryKey presentWorld.data = some (.obj [("x", .bool true)]) ∧
      AsyncStorageWrapper.prototype.removeItem "x" presentWorld =
        (.ok .undefined, (AsyncStorageWrapper.prototype.removeItem "x" presentWorld).2)) ∧
    ∃ R', assocGet registryKey
        (AsyncStorageWrapper.prototype.removeItem "x" presentWorld).2.data = some (.obj R') ∧
      (assocGet "x" [("x", Val.bool true)] = some (.bool true) ∨
          assocGet "x" [("x", Val.bool true)] = some .null →
        assocGet "x" R' = some .null) ∧
      (assocGet "x" [("x", Val.bool true)] = none → "x" ≠ "__proto__" →
        objectPrototypeMembers.contains "x" = false → R' = [("x", .bool true)]) ∧
      (∀ j, j ≠ "x" → assocGet j R' = assocGet j [("x", Val.bool true)]) ∧
      (∀ j, (assocGet j [("x", Val.bool true)]).isSome = true → (assocGet j R').isSome = true) :=
  ⟨⟨rfl, rfl⟩,
    removeItem_registry_entry presentWorld _ [("x", .bool true)] "x" .undefined rfl rfl⟩

/-! ## C8: the registry document under sequences of calls -/

theorem isFlagMap_setProp {R u : Val} (h : R.isFlagMap = true) (k : String) (v : Val)
    (hv : v.isFlag = true) (hu : setProp R k v = .ok u) : u.isFlagMap = true := by
  cases R with
  | obj fs =>
    simp only [setProp, Except.ok.injEq] at hu
    subst hu
    simp only [Val.isFlagMap, List.all_eq_true] at h ⊢
    intro kv hkv
    rcases mem_assignOwn hkv with h' | h'
    · exact h kv h'
    · rw [h']
      exact hv
  | _ => simp [Val.isFlagMap] at h

theorem RegistryStored.assocSet_of_ne {reg : Val} {d : List (String × Val)}
    (h : RegistryStored reg d) {k : String} (hk : k ≠ registryKey) (v : Val) :
    RegistryStored reg (assocSet k v d) := by
  obtain ⟨R, hR, hf⟩ := h
  exact ⟨R, by rw [assocGet_assocSet_of_ne (Ne.symm hk), hR], hf⟩

theorem RegistryStored.assocErase_of_ne {reg : Val} {d : List (String × Val)}
    (h : RegistryStored reg d) {k : String} (hk : k ≠ registryKey) :
    RegistryStored reg (assocErase k d) := by
  obtain ⟨R, hR, hf⟩ := h
  exact ⟨R, by rw [assocGet_assocErase_of_ne (Ne.symm hk), hR], hf⟩

/-- The last step of a call keeps the registry when all it may write under the
registry key is the snapshot with one entry set to a flag. -/
theorem update_keeps_registry {reg : Val} (x : Except Err Val × World) (w : World) (sk : Val)
    (key : String) (v : Val) (hv : v.isFlag = true) (hw : RegistryStored reg w.data)
    (hsk : reg.isFlagMap = true → sk.isFlagMap = true)
    (h : (∃ u, setProp sk key v = .ok u ∧ x = storageSet registryKey u w) ∨ (∃ r, x = (r, w))) :
    RegistryStored reg (logAndRethrow x).2.data := by
  rw [logAndRethrow_data]
  rcases h with ⟨u, hu, rfl⟩ | ⟨r, rfl⟩
  · rcases (storageSet_world registryKey u w).1 with ⟨_, hd⟩ | ⟨_, hd⟩
    · rw [hd]
      exact ⟨u, assocGet_assocSet_self _ _ _, fun hreg => isFlagMap_setProp (hsk hreg) key v hv hu⟩
    · rw [hd]
      exact hw
  · exact hw

theorem setItemUpdate_shape (key : String) (sk : Val) (w : World) :
    (∃ u, setProp sk key (.bool true) = .ok u ∧
        setItemUpdate key sk w = storageSet registryKey u w) ∨
      (∃ r, setItemUpdate key sk w = (r, w)) := by
  unfold setItemUpdate
  split
  · exact Or.inr ⟨_, rfl⟩
  · split
    · split
      · exact Or.inr ⟨_, rfl⟩
      · rename_i u hu
        exact Or.inl ⟨u, hu, rfl⟩
    · exact Or.inr ⟨_, rfl⟩

theorem removeItemUpdate_shape (key : String) (sk : Val) (w : World) :
    (∃ u, setProp sk key .null = .ok u ∧
        removeItemUpdate key sk w = storageSet registryKey u w) ∨
      (∃ r, removeItemUpdate key sk w = (r, w)) := by
  unfold removeItemUpdate
  split
  · exact Or.inr ⟨_, rfl⟩
  · split
    · split
      · exact Or.inr ⟨_, rfl⟩
      · rename_i u hu
        exact Or.inl ⟨u, hu, rfl⟩
    · exact Or.inr ⟨_, rfl⟩

/-- The registry read on a world that stores the registry returns it. -/
theorem storageGet_registry {reg : Val} {w w2 : World} {sk : Val}
    (hw : RegistryStored reg w.data) (h : storageGet registryKey w = (.ok sk, w2)) :
    (reg.isFlagMap = true → sk.isFlagMap = true) ∧ RegistryStored reg w2.data := by
  obtain ⟨R, hR, hf⟩ := hw
  have hv := @storageGet_ok registryKey w sk (by rw [h])
  have hd := (storageGet_world registryKey w).1
  rw [h] at hd
  simp only at hd
  rw [hR] at hv
  simp only [Option.getD_some] at hv
  subst hv
  exact ⟨hf, sk, by rw [hd, hR], hf⟩

theorem setItem_keeps_registry {reg : Val} {w : World} {key : String} (value : Val)
    (hk : key ≠ registryKey) (hw : RegistryStored reg w.data) :
    RegistryStored reg (AsyncStorageWrapper.prototype.setItem key value w).2.data := by
  simp only [AsyncStorageWrapper.prototype.setItem]
  have hset := (storageSet_world key value w).1
  rcases h1 : storageSet key value w with ⟨r1, w1⟩
  rw [h1] at hset
  simp only at hset
  have hw1 : RegistryStored reg w1.data := by
    rcases hset with ⟨_, hd⟩ | ⟨_, hd⟩
    · rw [hd]
      exact hw.assocSet_of_ne hk value
    · rw [hd]
      exact hw
  cases r1 with
  | error e =>
    rw [logAndRethrow_data]
    exact hw1
  | ok x =>
    simp only
    rcases h2 : storageGet registryKey w1 with ⟨r2, w2⟩
    cases r2 with
    | error e =>
      rw [logAndRethrow_data]
      have hd := (storageGet_world registryKey w1).1
      rw [h2] at hd
      simp only at hd ⊢
      rw [hd]
      exact hw1
    | ok sk =>
      obtain ⟨hsk, hw2⟩ := storageGet_registry hw1 h2
      exact update_keeps_registry _ w2 sk key (.bool true) rfl hw2 hsk
        (setItemUpdate_shape key sk w2)

theorem removeItem_keeps_registry {reg : Val} {w : World} {key : String}
    (hk : key ≠ registryKey) (hw : RegistryStored reg w.data) :
    RegistryStored reg (AsyncStorageWrapper.prototype.removeItem key w).2.data := by
  simp only [AsyncStorageWrapper.prototype.removeItem]
  have hrem := (storageRemove_world key w).1
  rcases h1 : storageRemove key w with ⟨r1, w1⟩
  rw [h1] at hrem
  simp only at hrem
  have hw1 : RegistryStored reg w1.data := by
    rcases hrem with ⟨_, hd⟩ | ⟨_, hd⟩
    · rw [hd]
      exact hw.assocErase_of_ne hk
    · rw [hd]
      exact hw
  cases r1 with
  | error e =>
    rw [logAndRethrow_data]
    exact hw1
  | ok x =>
    simp only
    rcases h2 : storageGet registryKey w1 with ⟨r2, w2⟩
    cases r2 with
    | error e =>
      rw [logAndRethrow_data]
      have hd := (storageGet_world registryKey w1).1
      rw [h2] at hd
      simp only at hd ⊢
      rw [hd]
      exact hw1
    | ok sk =>
      obtain ⟨hsk, hw2⟩ := storageGet_registry hw1 h2
      exact update_keeps_registry _ w2 sk key .null rfl hw2 hsk
        (removeItemUpdate_shape key sk w2)

theorem runCalls_keeps_registry {reg : Val} (calls : List Call) (w : World)
    (hkeys : ∀ c ∈ calls, c.isRead = true ∨ c.key ≠ registryKey)
    (hw : RegistryStored reg w.data) :
    RegistryStored reg (runCalls calls w).data := by
  induction calls generalizing w with
  | nil => exact hw
  | cons c rest ih =>
    have hc := hkeys c (List.mem_cons_self _ _)
    refine ih _ (fun c' hc' => hkeys c' (List.mem_cons_of_mem _ hc')) ?_
    cases c with
    | getItem key =>
      simp only [Call.run, AsyncStorageWrapper.prototype.getItem]
      rw [(storageGet_world key w).1]
      exact hw
    | setItem key value =>
      rcases hc with hc | hc
      · cases hc
      · exact setItem_keeps_registry value hc hw
    | removeItem key =>
      rcases hc with hc | hc
      · cases hc
      · exact removeItem_keeps_registry hc hw

/-- A successful construction leaves the registry it reports stored. -/
theorem construct_stores_registry (Storage : StorageArg) (w : World) (reg : Val)
    (hc : (AsyncStorageWrapper Storage w).callbacks = [.success reg]) :
    RegistryStored reg (AsyncStorageWrapper Storage w).world.data := by
  cases Storage with
  | undefined => simp [AsyncStorageWrapper] at hc
  | null => simp [AsyncStorageWrapper] at hc
  | object g s r =>
    revert hc
    simp only [AsyncStorageWrapper]
    split
    · intro hc
      simp at hc
    · have hgv := @storageGet_ok registryKey w
      have hgw := storageGet_world registryKey w
      rcases h1 : storageGet registryKey w with ⟨r1, w1⟩
      rw [h1] at hgv hgw
      simp only at hgv hgw
      cases r1 with
      | error e =>
        intro hc
        simp at hc
      | ok sk =>
        simp only
        split
        · have hset := (storageSet_world registryKey (.obj []) w1).1
          rcases h2 : storageSet registryKey (.obj []) w1 with ⟨r2, w2⟩
          rw [h2] at hset
          simp only at hset
          cases r2 with
          | error e =>
            intro hc
            simp at hc
          | ok x =>
            intro _
            rcases hset with ⟨_, hd⟩ | ⟨⟨e, he⟩, _⟩
            · simp only
              rw [hd]
              exact ⟨.obj [], assocGet_assocSet_self _ _ _, fun _ => rfl⟩
            · cases he
        · rename_i hnull
          intro hc
          simp only [List.cons.injEq, CallbackCall.success.injEq, and_true] at hc
          subst hc
          have hsk := hgv rfl
          simp only
          rw [hgw.1]
          cases hl : assocGet registryKey w.data with
          | none =>
            rw [hl] at hsk
            simp only [Option.getD_none] at hsk
            rw [hsk] at hnull
            exfalso
            apply hnull
            cases w.absent
            · exact Or.inl rfl
            · exact Or.inr rfl
          | some v =>
            rw [hl] at hsk
            simp only [Option.getD_some] at hsk
            exact ⟨v, hl, fun h => hsk ▸ h⟩

/-- C8 as stated fails: after a successful construction over a store without a
registry, `removeItem('async-storage-keys')` removes the registry document, and
`setItem('async-storage-keys', v)` puts the caller's object under the registry
key, with an entry that is not a flag. -/
theorem registry_lost_on_reserved_key :
    (AsyncStorageWrapper validStorage freshWorld).callbacks = [.success (.obj [])] ∧
    assocGet registryKey
      (runCalls [.removeItem registryKey] (AsyncStorageWrapper validStorage freshWorld).world).data
      = none ∧
    assocGet registryKey
      (runCalls [.setItem registryKey (.obj [("mine", .num 1)])]
        (AsyncStorageWrapper validStorage freshWorld).world).data
      = some (.obj [("mine", .num 1), (registryKey, .bool true)]) ∧
    (Val.obj [("mine", .num 1), (registryKey, .bool true)]).isFlagMap = false :=
  ⟨rfl, by rfl, by rfl, rfl⟩

/-- C8, amended. After a successful construction, for every finite sequence of
sequential `getItem`, `setItem` and `removeItem` calls in which no `setItem` or
`removeItem` is given the registry key (a `getItem` may read any key, the registry
key included), whichever store operations reject, the store still holds a
document under the registry key, and that document is a key-to-flag map if the
registry reported by the construction was one (as it is whenever the construction
creates the registry). -/
theorem registry_invariant (Storage : StorageArg) (w : World) (reg : Val) (calls : List Call)
    (hc : (AsyncStorageWrapper Storage w).callbacks = [.success reg])
    (hkeys : ∀ c ∈ calls, c.isRead = true ∨ c.key ≠ registryKey) :
    ∃ R, assocGet registryKey (runCalls calls (AsyncStorageWrapper Storage w).world).data = some R ∧
      (reg.isFlagMap = true → R.isFlagMap = true) :=
  runCalls_keeps_registry calls _ hkeys (construct_stores_registry Storage w reg hc)

/-- Witness for C8: construction over a store without a registry, then a write
and a removal of `x`, a read of `x` and a read of the registry key. -/
theorem registry_invariant_witness :
    ((AsyncStorageWrapper validStorage freshWorld).callbacks = [.success (.obj [])] ∧
      ∀ c ∈ [Call.setItem "x" (.num 1), Call.removeItem "x", Call.getItem "x",
          Call.getItem registryKey],
        c.isRead = true ∨ c.key ≠ registryKey) ∧
    assocGet registryKey
      (runCalls [Call.setItem "x" (.num 1), Call.removeItem "x", Call.getItem "x",
          Call.getItem registryKey]
        (AsyncStorageWrapper validStorage freshWorld).world).data = some (.obj [("x", .null)]) ∧
    ∃ R, assocGet registryKey
        (runCalls [Call.setItem "x" (.num 1), Call.removeItem "x", Call.getItem "x",
            Call.getItem registryKey]
          (AsyncStorageWrapper validStorage freshWorld).world).data = some R ∧
      ((Val.obj []).isFlagMap = true → R.isFlagMap = true) :=
  ⟨⟨rfl, by decide⟩, by rfl,
    registry_invariant validStorage freshWorld (.obj [])
      [Call.setItem "x" (.num 1), Call.removeItem "x", Call.getItem "x",
        Call.getItem registryKey] rfl (by decide)⟩

/-! ## C10: a lost update between two interleaved `setItem` calls -/

/-- Three steps of a `setItem` task, not interleaved with anything, are the
sequential `setItem`. -/
theorem setItem_eq_steps (key : String) (value : Val) (other : SetItemTask) (w : World) :
    interleave [false, false, false] ⟨.start key value, other, w⟩ =
      ⟨.settled (AsyncStorageWrapper.prototype.setItem key value w).1, other,
        (AsyncStorageWrapper.prototype.setItem key value w).2⟩ := by
  simp only [interleave, AsyncStorageWrapper.prototype.setItem, SetItemTask.step]
  rcases h1 : storageSet key value w with ⟨r1, w1⟩
  cases r1 with
  | error e => simp [SetItemTask.step, SetItemTask.settle]
  | ok x =>
    simp only [SetItemTask.step]
    rcases h2 : storageGet registryKey w1 with ⟨r2, w2⟩
    cases r2 with
    | error e => simp [SetItemTask.step, SetItemTask.settle]
    | ok sk => simp [SetItemTask.step, SetItemTask.settle]

/-- The race of `setItem(a, va)` and `setItem(b, vb)` after both writes and both
registry reads: the two calls hold the same snapshot `R`. -/
theorem race_after_reads {w : World} {R : List (String × Val)} {a b : String} (va vb : Val)
    (hreg : assocGet registryKey w.data = some (.obj R))
    (ha : a ≠ registryKey) (hb : b ≠ registryKey) (hok : w.Reliable) :
    interleave [false, true, false, true] ⟨.start a va, .start b vb, w⟩ =
      ⟨.snapshot a (.obj R), .snapshot b (.obj R),
        ⟨assocSet b vb (assocSet a va w.data), w.absent, w.faults.tail.tail.tail.tail,
          w.log ++ [.set a va, .set b vb, .get registryKey, .get registryKey], w.console⟩⟩ := by
  obtain ⟨data, absent, faults, log, console⟩ := w
  simp only at hreg
  have hok1 : World.Reliable ⟨assocSet a va data, absent, faults.tail,
      log ++ [.set a va], console⟩ := hok.of_tail rfl
  have hok2 : World.Reliable ⟨assocSet b vb (assocSet a va data), absent,
      faults.tail.tail, log ++ [.set a va, .set b vb], console⟩ := hok1.of_tail rfl
  have hok3 : World.Reliable ⟨assocSet b vb (assocSet a va data), absent,
      faults.tail.tail.tail, log ++ [.set a va, .set b vb, .get registryKey],
      console⟩ := hok2.of_tail rfl
  have hr : assocGet registryKey (assocSet b vb (assocSet a va data)) = some (.obj R) := by
    rw [assocGet_assocSet_of_ne (Ne.symm hb), assocGet_assocSet_of_ne (Ne.symm ha), hreg]
  simp [interleave, SetItemTask.step, storageSet_reliable hok, storageSet_reliable hok1,
    storageGet_reliable hok2, storageGet_reliable hok3, hr]

/-- Two write-backs of the same snapshot `R`, first for `p` then for `q`: both
calls resolve and the registry written last, the one for `q`, stays. -/
theorem race_write_backs {w : World} {R : List (String × Val)} {p q : String}
    (hpp : assocGet p R ≠ some (.bool true)) (hpq : assocGet q R ≠ some (.bool true))
    (hok : w.Reliable) :
    (SetItemTask.step (.snapshot q (.obj R)) (SetItemTask.step (.snapshot p (.obj R)) w).2) =
      (.settled (.ok .undefined),
        ⟨assocSet registryKey (.obj (assignOwn q (.bool true) R))
          (assocSet registryKey (.obj (assignOwn p (.bool true) R)) w.data), w.absent,
          w.faults.tail.tail,
          w.log ++ [.set registryKey (.obj (assignOwn p (.bool true) R)),
            .set registryKey (.obj (assignOwn q (.bool true) R))], w.console⟩) ∧
    (SetItemTask.step (.snapshot p (.obj R)) w).1 = .settled (.ok .undefined) := by
  obtain ⟨data, absent, faults, log, console⟩ := w
  have hok1 : World.Reliable
      ⟨assocSet registryKey (.obj (assignOwn p (.bool true) R)) data, absent, faults.tail,
        log ++ [.set registryKey (.obj (assignOwn p (.bool true) R))], console⟩ :=
    hok.of_tail rfl
  simp [SetItemTask.step, SetItemTask.settle, setItemUpdate_fresh _ hpp,
    setItemUpdate_fresh _ hpq, storageSet_reliable hok, storageSet_reliable hok1, logAndRethrow]

/-- C10. On a store whose operations all succeed and whose registry is the map
`R`, for distinct keys `a` and `b`, neither the registry key and neither present
in `R`, there is an interleaving of `setItem(a, 1)` and `setItem(b, 2)` in which
both registry reads return `R`, both calls resolve, both values are stored, the
two write-backs are those of `R` with one key assigned each, and the final
registry marks exactly one of `a`, `b` present: the one written back last. -/
theorem lost_update_exists (w : World) (R : List (String × Val)) (a b : String)
    (hreg : assocGet registryKey w.data = some (.obj R)) (hab : a ≠ b)
    (ha : a ≠ registryKey) (hb : b ≠ registryKey)
    (hpa : assocGet a R ≠ some (.bool true)) (hpb : assocGet b R ≠ some (.bool true))
    (hok : w.Reliable) :
    ∃ sched : List Bool,
      (interleave (sched.take 4) ⟨.start a (.num 1), .start b (.num 2), w⟩).first
        = .snapshot a (.obj R) ∧
      (interleave (sched.take 4) ⟨.start a (.num 1), .start b (.num 2), w⟩).second
        = .snapshot b (.obj R) ∧
      (interleave sched ⟨.start a (.num 1), .start b (.num 2), w⟩).first
        = .settled (.ok .undefined) ∧
      (interleave sched ⟨.start a (.num 1), .start b (.num 2), w⟩).second
        = .settled (.ok .undefined) ∧
      assocGet a (interleave sched ⟨.start a (.num 1), .start b (.num 2), w⟩).world.data
        = some (.num 1) ∧
      assocGet b (interleave sched ⟨.start a (.num 1), .start b (.num 2), w⟩).world.data
        = some (.num 2) ∧
      ∃ p q : String, ((p = a ∧ q = b) ∨ (p = b ∧ q = a)) ∧
        (interleave sched ⟨.start a (.num 1), .start b (.num 2), w⟩).world.log
          = w.log ++ [.set a (.num 1), .set b (.num 2), .get registryKey, .get registryKey,
              .set registryKey (.obj (assignOwn p (.bool true) R)),
              .set registryKey (.obj (assignOwn q (.bool true) R))] ∧
        ∃ R', assocGet registryKey
            (interleave sched ⟨.start a (.num 1), .start b (.num 2), w⟩).world.data
            = some (.obj R') ∧
          assocGet q R' = some (.bool true) ∧ assocGet p R' ≠ some (.bool true) := by
  have hmid := race_after_reads (.num 1) (.num 2) hreg ha hb hok
  have hok4 : World.Reliable
      ⟨assocSet b (.num 2) (assocSet a (.num 1) w.data), w.absent, w.faults.tail.tail.tail.tail,
        w.log ++ [.set a (.num 1), .set b (.num 2), .get registryKey, .get registryKey],
        w.console⟩ :=
    World.Reliable.of_tail
      (@World.Reliable.of_tail3 w ⟨w.data, w.absent, w.faults.tail.tail.tail, w.log, w.console⟩
        hok rfl) rfl
  have hda : ∀ u1 u2 : Val, assocGet a (assocSet registryKey u2 (assocSet registryKey u1
      (assocSet b (.num 2) (assocSet a (.num 1) w.data)))) = some (.num 1) := by
    intro u1 u2
    rw [assocGet_assocSet_of_ne ha, assocGet_assocSet_of_ne ha, assocGet_assocSet_of_ne hab,
      assocGet_assocSet_self]
  have hdb : ∀ u1 u2 : Val, assocGet b (assocSet registryKey u2 (assocSet registryKey u1
      (assocSet b (.num 2) (assocSet a (.num 1) w.data)))) = some (.num 2) := by
    intro u1 u2
    rw [assocGet_assocSet_of_ne hb, assocGet_assocSet_of_ne hb, assocGet_assocSet_self]
  by_cases hbw : b ≠ "__proto__" ∨ (assocGet b R).isSome = true
  · have hlast := race_write_backs hpa hpb hok4
    have hfin : interleave lostUpdateSchedule ⟨.start a (.num 1), .start b (.num 2), w⟩ =
        ⟨.settled (.ok .undefined), .settled (.ok .undefined),
          ⟨assocSet registryKey (.obj (assignOwn b (.bool true) R))
            (assocSet registryKey (.obj (assignOwn a (.bool true) R))
              (assocSet b (.num 2) (assocSet a (.num 1) w.data))), w.absent,
            w.faults.tail.tail.tail.tail.tail.tail,
            w.log ++ [.set a (.num 1), .set b (.num 2), .get registryKey, .get registryKey,
              .set registryKey (.obj (assignOwn a (.bool true) R)),
              .set registryKey (.obj (assignOwn b (.bool true) R))],
            w.console⟩⟩ := by
      show interleave [false, true] (interleave [false, true, false, true] _) = _
      rw [hmid]
      simp only [interleave]
      rw [hlast.1, hlast.2]
      simp
    refine ⟨lostUpdateSchedule, ?_, ?_, ?_, ?_, ?_, ?_, a, b, Or.inl ⟨rfl, rfl⟩, ?_, ?_⟩
    · show (interleave [false, true, false, true] _).first = _
      rw [hmid]
    · show (interleave [false, true, false, true] _).second = _
      rw [hmid]
    · rw [hfin]
    · rw [hfin]
    · rw [hfin]
      exact hda _ _
    · rw [hfin]
      exact hdb _ _
    · rw [hfin]
    · rw [hfin]
      refine ⟨assignOwn b (.bool true) R, assocGet_assocSet_self _ _ _,
        assocGet_assignOwn_self _ hbw, ?_⟩
      rw [assocGet_assignOwn_of_ne hab]
      exact hpa
  · have haw : a ≠ "__proto__" ∨ (assocGet a R).isSome = true := by
      left
      intro h
      apply hbw
      left
      intro h'
      exact hab (h.trans h'.symm)
    have hlast := race_write_backs hpb hpa hok4
    have hfin : interleave lostUpdateScheduleReversed
        ⟨.start a (.num 1), .start b (.num 2), w⟩ =
        ⟨.settled (.ok .undefined), .settled (.ok .undefined),
          ⟨assocSet registryKey (.obj (assignOwn a (.bool true) R))
            (assocSet registryKey (.obj (assignOwn b (.bool true) R))
              (assocSet b (.num 2) (assocSet a (.num 1) w.data))), w.absent,
            w.faults.tail.tail.tail.tail.tail.tail,
            w.log ++ [.set a (.num 1), .set b (.num 2), .get registryKey, .get registryKey,
              .set registryKey (.obj (assignOwn b (.bool true) R)),
              .set registryKey (.obj (assignOwn a (.bool true) R))],
            w.console⟩⟩ := by
      show interleave [true, false] (interleave [false, true, false, true] _) = _
      rw [hmid]
      simp only [interleave]
      rw [hlast.1, hlast.2]
      simp
    refine ⟨lostUpdateScheduleReversed, ?_, ?_, ?_, ?_, ?_, ?_, b, a, Or.inr ⟨rfl, rfl⟩, ?_, ?_⟩
    · show (interleave [false, true, false, true] _).first = _
      rw [hmid]
    · show (interleave [false, true, false, true] _).second = _
      rw [hmid]
    · rw [hfin]
    · rw [hfin]
    · rw [hfin]
      exact hda _ _
    · rw [hfin]
      exact hdb _ _
    · rw [hfin]
    · rw [hfin]
      refine ⟨assignOwn a (.bool true) R, assocGet_assocSet_self _ _ _,
        assocGet_assignOwn_self _ haw, ?_⟩
      rw [assocGet_assignOwn_of_ne (Ne.symm hab)]
      exact hpb

/-- Witness for C10: `setItem("a", 1)` and `setItem("b", 2)` interleaved on the
registry `{}`. -/
theorem lost_update_exists_witness :
    (assocGet registryKey emptyRegistryWorld.data = some (.obj []) ∧ "a" ≠ "b" ∧
      "a" ≠ registryKey ∧ "b" ≠ registryKey ∧
      assocGet "a" ([] : List (String × Val)) ≠ some (.bool true) ∧
      assocGet "b" ([] : List (String × Val)) ≠ some (.bool true) ∧
      emptyRegistryWorld.Reliable) ∧
    assocGet registryKey
      (interleave lostUpdateSchedule
        ⟨.start "a" (.num 1), .start "b" (.num 2), emptyRegistryWorld⟩).world.data
      = some (.obj [("b", .bool true)]) ∧
    assocGet registryKey
      (interleave lostUpdateScheduleReversed
        ⟨.start "a" (.num 1), .start "__proto__" (.num 2), emptyRegistryWorld⟩).world.data
      = some (.obj [("a", .bool true)]) ∧
    ∃ sched : List Bool,
      (interleave (sched.take 4) ⟨.start "a" (.num 1), .start "b" (.num 2), emptyRegistryWorld⟩).first
        = .snapshot "a" (.obj []) ∧
      (interleave (sched.take 4) ⟨.start "a" (.num 1), .start "b" (.num 2), emptyRegistryWorld⟩).second
        = .snapshot "b" (.obj []) ∧
      (interleave sched ⟨.start "a" (.num 1), .start "b" (.num 2), emptyRegistryWorld⟩).first
        = .settled (.ok .undefined) ∧
      (interleave sched ⟨.start "a" (.num 1), .start "b" (.num 2), emptyRegistryWorld⟩).second
        = .settled (.ok .undefined) ∧
      assocGet "a" (interleave sched
          ⟨.start "a" (.num 1), .start "b" (.num 2), emptyRegistryWorld⟩).world.data
        = some (.num 1) ∧
      assocGet "b" (interleave sched
          ⟨.start "a" (.num 1), .start "b" (.num 2), emptyRegistryWorld⟩).world.data
        = some (.num 2) ∧
      ∃ p q : String, ((p = "a" ∧ q = "b") ∨ (p = "b" ∧ q = "a")) ∧
        (interleave sched ⟨.start "a" (.num 1), .start "b" (.num 2), emptyRegistryWorld⟩).world.log
          = emptyRegistryWorld.log ++ [.set "a" (.num 1), .set "b" (.num 2), .get registryKey,
              .get registryKey,
              .set registryKey (.obj (assignOwn p (.bool true) [])),
              .set registryKey (.obj (assignOwn q (.bool true) []))] ∧
        ∃ R', assocGet registryKey
            (interleave sched
              ⟨.start "a" (.num 1), .start "b" (.num 2), emptyRegistryWorld⟩).world.data
            = some (.obj R') ∧
          assocGet q R' = some (.bool true) ∧ assocGet p R' ≠ some (.bool true) :=
  ⟨⟨rfl, by decide, by decide, by decide, by simp [assocGet], by simp [assocGet],
      by simp [World.Reliable, emptyRegistryWorld]⟩, by rfl, by rfl,
    lost_update_exists emptyRegistryWorld [] "a" "b" rfl (by decide) (by decide) (by decide)
      (by simp [assocGet]) (by simp [assocGet]) (by simp [World.Reliable, emptyRegistryWorld])⟩
